import Mathlib

/-!
Shallow embedding of pikaur's install pipeline (`pikaur/install_cli.py`,
functions `install_prompt` and `cli_install_packages`) for checking the
natural-language specification against the code.

The pipeline is modelled as a pure function from an environment `Env`
(capturing the CLI arguments, the results of external collaborators such as
`find_repo_packages` / `find_aur_deps` / `check_conflicts` /
`clone_pkgbuilds_git_repos`, the per-package recipe status, and the user's
interactive answers) to a `RunResult`: either a normal return or an abort,
together with the ordered trace of observable side effects (privileged
commands invoked, packages built, hashes persisted, prompts shown).
-/

set_option autoImplicit false

namespace Pikaur

/-- Command-line arguments relevant to `cli_install_packages`
(`args.noconfirm`, `args.needed`, `args.downloadonly`). -/
structure Args where
  noconfirm : Bool
  needed : Bool
  downloadonly : Bool

/-- Per-package recipe state as seen by `cli_install_packages`: the fields of
the `PackageBuild` object it reads (`version_already_installed`,
`already_installed`, `build_files_updated`, the `arch` array of the parsed
`.SRCINFO`), plus `build_result`, the outcome of `repo_status.build(...)`.
`build_result` is modelled from the spec (the `build` module is external to
the analysed sources): on success it is the `built_package_path` that the
build step sets, on `BuildError` it is `none` and `built_package_path`
stays unset. -/
structure RepoStatus where
  version_already_installed : Bool
  already_installed : Bool
  build_files_updated : Bool
  supported_archs : List String
  build_result : Option String

/-- The user's interactive answers and the results of the external privileged
commands, one field per call site in `cli_install_packages`:
`promptAnswers` is the stream of values returned by `print_sysupgrade`
inside `install_prompt` (`none` models a falsy/empty answer);
`removeConflict n c` answers "Do you want to remove c?" shown for the
conflict declared by new package n; `editor` is the editor found by
`get_editor` (or `none`); the `...Ok` fields are the results of the four
`retry_interactive_command` invocations and the `...Continue` fields the
answers to the `ask_to_continue` shown when such a command fails. -/
structure Answers where
  promptAnswers : List (Option String)
  cloneContinue : Bool
  removeConflict : String → String → Bool
  editor : Option String
  proceedWithoutEditor : Bool
  removeOk : Bool
  removeContinue : Bool
  repoOk : Bool
  repoContinue : Bool
  depsOk : Bool
  depsContinue : Bool
  explicitOk : Bool
  explicitContinue : Bool

/-- Environment of one `cli_install_packages` run: arguments, the machine
architecture (`platform.machine()`), the resolution results
(`find_repo_packages` and `find_aur_deps` are external collaborators, so
their outputs are inputs here), whether `clone_pkgbuilds_git_repos` raised
`CloneError`, the result of `check_conflicts` (an insertion-ordered dict,
modelled as an association list), the per-package recipe state, and the
interactive answers. -/
structure Env where
  args : Args
  arch : String
  repo_packages_names : List String
  aur_packages_names : List String
  aur_deps_names : List String
  clone_fails : Bool
  conflict_result : List (String × List String)
  builds : String → RepoStatus
  ans : Answers

/-- Observable side effects of a run, in order of occurrence. The four
install/remove events record the exact privileged `pacman` invocation's
package payload plus whether `retry_interactive_command` reported success;
`depsInstallCmd` corresponds to `pacman --upgrade --asdeps` and carries
(name, built-artifact path) pairs, `explicitInstallCmd` to
`pacman --upgrade` for the explicitly requested packages. -/
inductive Event where
  | cloneAttempt : Event
  | conflictPrompt (newPkg conflict : String) : Event
  | reviewed (name : String) : Event
  | archChecked (name : String) : Event
  | sudoAcquired : Event
  | build (name : String) (ok : Bool) : Event
  | removeCmd (pkgs : List String) (ok : Bool) : Event
  | repoInstallCmd (pkgs : List String) (ok : Bool) : Event
  | depsInstallCmd (pkgs : List (String × String)) (ok : Bool) : Event
  | explicitInstallCmd (pkgs : List (String × String)) (ok : Bool) : Event
  | persistHash (name : String) : Event
  | failSummary (names : List String) : Event
  deriving DecidableEq, Repr

/-- Abnormal terminations: `exited c` models `sys.exit(c)`, `notImplemented`
the `NotImplementedError` raised for the `[m]anual` prompt answer,
`outOfAnswers` a run whose modelled prompt-answer stream is exhausted (the
user is still being prompted), and `crashed` the `TypeError` hit when
`package_builds` is `None` (clone failed, user chose to continue) but the
review loop subscripts it. -/
inductive Abort where
  | exited (code : Nat) : Abort
  | notImplemented : Abort
  | outOfAnswers : Abort
  | crashed : Abort
  deriving DecidableEq, Repr

/-- Result of a run: normal return or abort, with the event trace. -/
inductive RunResult where
  | finished (trace : List Event) : RunResult
  | aborted (a : Abort) (trace : List Event) : RunResult
  deriving DecidableEq, Repr

/-- Event trace of a result. -/
def RunResult.trace : RunResult → List Event
  | .finished tr => tr
  | .aborted _ tr => tr

/-- Whether the run returned normally. -/
def RunResult.isFinished : RunResult → Bool
  | .finished _ => true
  | .aborted _ _ => false

/-- The `sys.exit` code of the run, when it exited that way. -/
def RunResult.exitCode? : RunResult → Option Nat
  | .aborted (.exited c) _ => some c
  | _ => none

/-- Outcome of the answer loop of `install_prompt`. -/
inductive PromptOutcome where
  | proceed : PromptOutcome
  | exitOne : PromptOutcome
  | notImpl : PromptOutcome
  | outOfAnswers : PromptOutcome
  deriving DecidableEq, Repr

/-- The answer loop of `install_prompt`: each list element is one value
returned by `print_sysupgrade` (`none` for a falsy answer, which breaks the
loop and proceeds). A truthy answer is dispatched on
`answer.lower()[0]`, i.e. the lowercased first character — written here as
`s.front.toLower`, which coincides with `s.toLower.front` because
`String.toLower` lowercases characterwise: `y` breaks and proceeds, `v`
re-prints the summary verbosely and consumes the next answer, `m` raises
`NotImplementedError`, anything else is `sys.exit(1)`. -/
def install_prompt : List (Option String) → PromptOutcome
  | [] => .outOfAnswers
  | none :: _ => .proceed
  | some s :: rest =>
    if s.isEmpty then .proceed
    else
      let letter := s.front.toLower
      if letter = 'y' then .proceed
      else if letter = 'v' then install_prompt rest
      else if letter = 'm' then .notImpl
      else .exitOne

/-- All AUR package names of the run:
`all_aur_packages_names = aur_packages_names + aur_deps_names`. -/
def allAur (env : Env) : List String :=
  env.aur_packages_names ++ env.aur_deps_names

/-- All newly installed package names:
`all_new_packages_names = repo_packages_names + aur_packages_names`. -/
def allNew (env : Env) : List String :=
  env.repo_packages_names ++ env.aur_packages_names

/-- Confirmation phase: when `noconfirm` is not set, run `install_prompt`;
its answer loop can proceed, exit 1, or raise. -/
def promptPhase (env : Env) : Except Abort Unit :=
  if env.args.noconfirm then .ok ()
  else
    match install_prompt env.ans.promptAnswers with
    | .proceed => .ok ()
    | .exitOne => .error (.exited 1)
    | .notImpl => .error .notImplemented
    | .outOfAnswers => .error .outOfAnswers

/-- Clone phase: `clone_pkgbuilds_git_repos` is attempted only when there is
at least one AUR package; on `CloneError` the user is asked whether to
continue, declining is `sys.exit(1)`. -/
def clonePhase (env : Env) : Except (List Event × Abort) (List Event) :=
  if allAur env = [] then .ok []
  else if env.clone_fails then
    if env.ans.cloneContinue then .ok [.cloneAttempt]
    else .error ([.cloneAttempt], .exited 1)
  else .ok [.cloneAttempt]

/-- Whether some declared conflict of a new package names another package
that is itself newly installed in this run (the first loop over
`conflict_result.items()`). -/
def hasNewNewConflict (env : Env) : Bool :=
  env.conflict_result.any fun p => p.2.any fun c => (allNew env).contains c

/-- The (new package, declared conflict) pairs in the iteration order of the
second loop over `conflict_result.items()`. -/
def conflictPairs (env : Env) : List (String × String) :=
  env.conflict_result.flatMap fun p => p.2.map fun c => (p.1, c)

/-- The removal prompt loop: for each (new package, conflict) pair in order,
ask "Do you want to remove ...?"; a declined answer is `sys.exit(1)`. -/
def askRemoveLoop (env : Env) : List (String × String) → Except (List Event × Abort) (List Event)
  | [] => .ok []
  | (n, c) :: rest =>
    if env.ans.removeConflict n c then
      match askRemoveLoop env rest with
      | .error (d, a) => .error (.conflictPrompt n c :: d, a)
      | .ok d => .ok (.conflictPrompt n c :: d)
    else .error ([.conflictPrompt n c], .exited 1)

/-- Conflict phase: skipped when `check_conflicts` returned an empty dict;
a conflict among two new packages is `sys.exit(1)` before any prompt;
otherwise every (new package, conflict) pair is prompted for removal. -/
def conflictPhase (env : Env) : Except (List Event × Abort) (List Event) :=
  if env.conflict_result = [] then .ok []
  else if hasNewNewConflict env then .error ([], .exited 1)
  else askRemoveLoop env (conflictPairs env)

/-- `packages_to_be_removed`: the deduplicated concatenation of all conflict
lists (`list(set(reduce(lambda x, y: x+y, conflict_result.values(), [])))`),
computed only when `conflict_result` is non-empty. Python's `set` order is
unspecified; `List.dedup` fixes one representative order, and every claim
about this list is stated up to membership. -/
def packagesToBeRemoved (env : Env) : List String :=
  if env.conflict_result = [] then []
  else ((env.conflict_result.map Prod.snd).flatten).dedup

/-- Whether the review loop's `args.needed and version_already_installed`
skip branch applies to a package. -/
def reviewSkip (env : Env) (n : String) : Bool :=
  env.args.needed && (env.builds n).version_already_installed

/-- The architecture check of the review loop:
`('any' not in supported_archs) and (arch not in supported_archs)` aborts. -/
def archOk (env : Env) (n : String) : Bool :=
  (env.builds n).supported_archs.contains "any"
    || (env.builds n).supported_archs.contains env.arch

/-- One iteration of the review loop (`for pkg_name in
reversed(all_aur_packages_names)`): the up-to-date skip branch; otherwise the
diff/edit interactions (no modelled state change), `get_editor` which is
`sys.exit(2)` when no editor is found and the user declines to proceed, and
the architecture check which is `sys.exit(1)` on failure. -/
def reviewOne (env : Env) (n : String) : Except (List Event × Abort) (List Event) :=
  if reviewSkip env n then .ok [.reviewed n]
  else if env.ans.editor.isNone && !env.ans.proceedWithoutEditor then
    .error ([.reviewed n], .exited 2)
  else if !(archOk env n) then
    .error ([.reviewed n, .archChecked n], .exited 1)
  else .ok [.reviewed n, .archChecked n]

/-- The review loop over a list of package names, stopping at the first
aborting iteration. -/
def reviewLoop (env : Env) : List String → Except (List Event × Abort) (List Event)
  | [] => .ok []
  | n :: rest =>
    match reviewOne env n with
    | .error (d, a) => .error (d, a)
    | .ok d =>
      match reviewLoop env rest with
      | .error (d2, a) => .error (d ++ d2, a)
      | .ok d2 => .ok (d ++ d2)

/-- Review phase: iterates `reversed(all_aur_packages_names)`. When the
earlier clone raised and the user chose to continue, `package_builds` is
still `None` and the first subscript `package_builds[pkg_name]` raises
`TypeError` (modelled as `crashed`); the loop body never runs when the AUR
list is empty. -/
def reviewPhase (env : Env) : Except (List Event × Abort) (List Event) :=
  if allAur env = [] then .ok []
  else if env.clone_fails then .error ([], .crashed)
  else reviewLoop env (allAur env).reverse

/-- Whether the build loop's `args.needed and already_installed` skip branch
applies to a package (note: a different flag than the review skip). -/
def buildSkip (env : Env) (n : String) : Bool :=
  env.args.needed && (env.builds n).already_installed

/-- The packages actually visited by the build loop, in its iteration order
(`reversed(all_aur_packages_names)`, minus the
`args.needed and already_installed` skips). -/
def buildVisited (env : Env) : List String :=
  (allAur env).reverse.filter fun n => !(buildSkip env n)

/-- Events of the build loop: one `build` event per visited package,
successful iff `repo_status.build` produced an artifact. A `BuildError` is
caught, recorded, and the loop continues. -/
def buildEvents (env : Env) : List Event :=
  (buildVisited env).map fun n => .build n (env.builds n).build_result.isSome

/-- `failed_to_build`: the visited packages whose build raised `BuildError`,
in build-loop order. -/
def failedToBuild (env : Env) : List String :=
  (buildVisited env).filter fun n => (env.builds n).build_result.isNone

/-- `built_package_path` of a package at the end of the build loop: set only
by a successful build of this run, `None` for a skipped or failed package. -/
def builtPath (env : Env) (n : String) : Option String :=
  if buildSkip env n then none else (env.builds n).build_result

/-- One privileged step guarded by `retry_interactive_command`: on failure
the user is asked whether to continue (`default_yes=False`); declining is
`sys.exit(1)`. -/
def stepCmd (ok cont : Bool) (e : Event) : Except (List Event × Abort) (List Event) :=
  if ok then .ok [e]
  else if cont then .ok [e]
  else .error ([e], .exited 1)

/-- Removal of the approved conflicting packages
(`sudo pacman -R --noconfirm ...`), skipped when the list is empty. -/
def removeStep (env : Env) : Except (List Event × Abort) (List Event) :=
  if packagesToBeRemoved env = [] then .ok []
  else stepCmd env.ans.removeOk env.ans.removeContinue
    (.removeCmd (packagesToBeRemoved env) env.ans.removeOk)

/-- Batched repository install (`sudo pacman --sync --noconfirm ...`),
skipped when there are no repository packages. -/
def repoStep (env : Env) : Except (List Event × Abort) (List Event) :=
  if env.repo_packages_names = [] then .ok []
  else stepCmd env.ans.repoOk env.ans.repoContinue
    (.repoInstallCmd env.repo_packages_names env.ans.repoOk)

/-- `new_aur_deps_to_install`, with the owning package name kept alongside
each built artifact path: the AUR dependencies whose `built_package_path`
is set, in `aur_deps_names` order. -/
def depsBatch (env : Env) : List (String × String) :=
  env.aur_deps_names.filterMap fun n => (builtPath env n).map fun p => (n, p)

/-- `aur_packages_to_install`: the explicitly requested AUR packages whose
`built_package_path` is set, in `aur_packages_names` order. -/
def explicitBatch (env : Env) : List (String × String) :=
  env.aur_packages_names.filterMap fun n => (builtPath env n).map fun p => (n, p)

/-- Install of built AUR dependency artifacts
(`sudo pacman --upgrade --asdeps --noconfirm ...`), skipped when empty. -/
def depsStep (env : Env) : Except (List Event × Abort) (List Event) :=
  if depsBatch env = [] then .ok []
  else stepCmd env.ans.depsOk env.ans.depsContinue
    (.depsInstallCmd (depsBatch env) env.ans.depsOk)

/-- Install of built explicitly requested AUR artifacts
(`sudo pacman --upgrade --noconfirm ...`), skipped when empty. -/
def explicitStep (env : Env) : Except (List Event × Abort) (List Event) :=
  if explicitBatch env = [] then .ok []
  else stepCmd env.ans.explicitOk env.ans.explicitContinue
    (.explicitInstallCmd (explicitBatch env) env.ans.explicitOk)

/-- Hash-persistence events: guarded by the truthiness of `package_builds`
(non-empty dict); one `.git/refs/heads/master` copy per package whose
`built_package_path` is set, iterating the dict in insertion order. -/
def persistEvents (env : Env) : List Event :=
  if allAur env = [] then []
  else (allAur env).filterMap fun n =>
    if (builtPath env n).isSome then some (.persistHash n) else none

/-- Final failure summary, printed only when `failed_to_build` is
non-empty. -/
def summaryEvents (env : Env) : List Event :=
  if failedToBuild env = [] then [] else [.failSummary (failedToBuild env)]

/-- The whole `cli_install_packages` pipeline: confirmation prompt, AUR
clone, conflict check, review loop, `sudo true`, build loop, conflicting
package removal, repository install, the download-only early return, AUR
dependency install, explicit AUR install, hash persistence, and the failure
summary — with every `sys.exit` path of the source. -/
def cli_install_packages (env : Env) : RunResult :=
  match promptPhase env with
  | .error a => .aborted a []
  | .ok _ =>
  match clonePhase env with
  | .error (d, a) => .aborted a d
  | .ok d1 =>
  match conflictPhase env with
  | .error (d, a) => .aborted a (d1 ++ d)
  | .ok d2 =>
  match reviewPhase env with
  | .error (d, a) => .aborted a (d1 ++ d2 ++ d)
  | .ok d3 =>
  match removeStep env with
  | .error (d, a) =>
      .aborted a (d1 ++ d2 ++ d3 ++ [Event.sudoAcquired] ++ buildEvents env ++ d)
  | .ok d5 =>
  match repoStep env with
  | .error (d, a) =>
      .aborted a (d1 ++ d2 ++ d3 ++ [Event.sudoAcquired] ++ buildEvents env ++ d5 ++ d)
  | .ok d6 =>
  if env.args.downloadonly then
    .finished (d1 ++ d2 ++ d3 ++ [Event.sudoAcquired] ++ buildEvents env ++ d5 ++ d6)
  else
  match depsStep env with
  | .error (d, a) =>
      .aborted a (d1 ++ d2 ++ d3 ++ [Event.sudoAcquired] ++ buildEvents env ++ d5 ++ d6 ++ d)
  | .ok d7 =>
  match explicitStep env with
  | .error (d, a) =>
      .aborted a
        (d1 ++ d2 ++ d3 ++ [Event.sudoAcquired] ++ buildEvents env ++ d5 ++ d6 ++ d7 ++ d)
  | .ok d8 =>
  .finished
    (d1 ++ d2 ++ d3 ++ [Event.sudoAcquired] ++ buildEvents env ++ d5 ++ d6 ++ d7 ++ d8
      ++ persistEvents env ++ summaryEvents env)

/-- The events (including those of an aborting result) of a phase. -/
def stepEvents {α : Type} : Except (List Event × α) (List Event) → List Event
  | .ok d => d
  | .error (d, _) => d

/-- Whether an event builds, removes, or installs a package, or persists a
hash — the side effects that a run aborted by a fatal precondition must not
have performed. -/
def Event.isSideEffect : Event → Bool
  | .build _ _ => true
  | .removeCmd _ _ => true
  | .repoInstallCmd _ _ => true
  | .depsInstallCmd _ _ => true
  | .explicitInstallCmd _ _ => true
  | .persistHash _ => true
  | _ => false

/-- Whether an event belongs to the part of the pipeline that follows the
download-only early return: AUR dependency install, explicit AUR install,
hash persistence, or the failure summary. -/
def Event.isLateStep : Event → Bool
  | .depsInstallCmd _ _ => true
  | .explicitInstallCmd _ _ => true
  | .persistHash _ => true
  | .failSummary _ => true
  | _ => false

/-- Package name of a `reviewed` event. -/
def reviewedName? : Event → Option String
  | .reviewed n => some n
  | _ => none

/-- Package name of a `build` event. -/
def buildName? : Event → Option String
  | .build n _ => some n
  | _ => none

/-- The (new package, conflict) pair of a `conflictPrompt` event. -/
def promptPair? : Event → Option (String × String)
  | .conflictPrompt n c => some (n, c)
  | _ => none

/-- The order in which the review pass visited packages. -/
def reviewedNames (tr : List Event) : List String :=
  tr.filterMap reviewedName?

/-- The order in which the build pass visited packages. -/
def buildNames (tr : List Event) : List String :=
  tr.filterMap buildName?

/-- The conflict-removal prompts shown, in order. -/
def promptPairs (tr : List Event) : List (String × String) :=
  tr.filterMap promptPair?

/-- Position of a privileged install-sequence step in the fixed order
prescribed for the sequencer: removal, repository install, AUR dependency
install, explicit AUR install, hash persistence. -/
def privRank? : Event → Option Nat
  | .removeCmd _ _ => some 0
  | .repoInstallCmd _ _ => some 1
  | .depsInstallCmd _ _ => some 2
  | .explicitInstallCmd _ _ => some 3
  | .persistHash _ => some 4
  | _ => none

/-- The privileged install-sequence events of a trace, in trace order. -/
def privEvents (tr : List Event) : List Event :=
  tr.filter fun e => (privRank? e).isSome

/-- The full privileged install sequence of a run that is never aborted:
removal of conflicting packages, repository install, AUR dependency
install, explicit AUR install, hash persistence — each step dropped when its
input is empty, and everything after the repository install dropped in
download-only mode. -/
def seqFull (env : Env) : List Event :=
  (if packagesToBeRemoved env = [] then []
    else [Event.removeCmd (packagesToBeRemoved env) env.ans.removeOk])
  ++ (if env.repo_packages_names = [] then []
    else [Event.repoInstallCmd env.repo_packages_names env.ans.repoOk])
  ++ (if env.args.downloadonly then []
    else
      (if depsBatch env = [] then []
        else [Event.depsInstallCmd (depsBatch env) env.ans.depsOk])
      ++ (if explicitBatch env = [] then []
        else [Event.explicitInstallCmd (explicitBatch env) env.ans.explicitOk])
      ++ persistEvents env)

/-- Arguments of a plain `pikaur -S pkg...` invocation. -/
def stdArgs : Args :=
  { noconfirm := true, needed := false, downloadonly := false }

/-- An interactive session that approves everything, has an editor
available, and in which every privileged command succeeds. -/
def stdAnswers : Answers :=
  { promptAnswers := [], cloneContinue := true,
    removeConflict := fun _ _ => true, editor := some "vim",
    proceedWithoutEditor := true,
    removeOk := true, removeContinue := true, repoOk := true,
    repoContinue := true, depsOk := true, depsContinue := true,
    explicitOk := true, explicitContinue := true }

/-- A not-yet-installed recipe, valid on every architecture, whose build
succeeds. -/
def stdStatus : RepoStatus :=
  { version_already_installed := false, already_installed := false,
    build_files_updated := false, supported_archs := ["any"],
    build_result := some "/pkg.tar" }

/-- Run requesting two AUR packages that conflict with each other. -/
def envConflictNew : Env :=
  { args := stdArgs, arch := "x86_64", repo_packages_names := [],
    aur_packages_names := ["a", "b"], aur_deps_names := [],
    clone_fails := false, conflict_result := [("a", ["b"])],
    builds := fun _ => stdStatus, ans := stdAnswers }

/-- Run requesting one AUR package whose recipe supports only a foreign
architecture. -/
def envBadArch : Env :=
  { args := stdArgs, arch := "x86_64", repo_packages_names := [],
    aur_packages_names := ["foo"], aur_deps_names := [],
    clone_fails := false, conflict_result := [],
    builds := fun _ => { stdStatus with supported_archs := ["armv7h"] },
    ans := stdAnswers }

/-- Download-only run of one AUR package whose build succeeds. -/
def envDlBuild : Env :=
  { args := { stdArgs with downloadonly := true }, arch := "x86_64",
    repo_packages_names := [], aur_packages_names := ["foo"],
    aur_deps_names := [], clone_fails := false, conflict_result := [],
    builds := fun _ => stdStatus, ans := stdAnswers }

/-- Run of the explicit AUR package `bar` with the AUR dependency `baz`;
both builds succeed. -/
def envTwo : Env :=
  { args := stdArgs, arch := "x86_64", repo_packages_names := [],
    aur_packages_names := ["bar"], aur_deps_names := ["baz"],
    clone_fails := false, conflict_result := [],
    builds := fun n =>
      if n = "bar" then { stdStatus with build_result := some "/bar.pkg" }
      else { stdStatus with build_result := some "/baz.pkg" },
    ans := stdAnswers }

/-- Run of two AUR packages of which one fails to build. -/
def envFailBuild : Env :=
  { args := stdArgs, arch := "x86_64", repo_packages_names := [],
    aur_packages_names := ["good", "bad"], aur_deps_names := [],
    clone_fails := false, conflict_result := [],
    builds := fun n =>
      if n = "bad" then { stdStatus with build_result := none } else stdStatus,
    ans := stdAnswers }

/-- Download-only run of one AUR package whose build fails. -/
def envDlFail : Env :=
  { args := { stdArgs with downloadonly := true }, arch := "x86_64",
    repo_packages_names := [], aur_packages_names := ["foo"],
    aur_deps_names := [], clone_fails := false, conflict_result := [],
    builds := fun _ => { stdStatus with build_result := none },
    ans := stdAnswers }

/-- Plain run of one AUR package whose build fails. -/
def envFailSummary : Env :=
  { args := stdArgs, arch := "x86_64", repo_packages_names := [],
    aur_packages_names := ["foo"], aur_deps_names := [],
    clone_fails := false, conflict_result := [],
    builds := fun _ => { stdStatus with build_result := none },
    ans := stdAnswers }

/-- Run of one AUR package that builds fine, but whose final install
command fails; the user then chooses to continue anyway. -/
def envInstFail : Env :=
  { args := stdArgs, arch := "x86_64", repo_packages_names := [],
    aur_packages_names := ["foo"], aur_deps_names := [],
    clone_fails := false, conflict_result := [],
    builds := fun _ => stdStatus,
    ans := { stdAnswers with explicitOk := false, explicitContinue := true } }

/-- Run of two new AUR packages that both conflict with the same installed
package `x`. -/
def envDupConflict : Env :=
  { args := stdArgs, arch := "x86_64", repo_packages_names := [],
    aur_packages_names := ["a", "b"], aur_deps_names := [],
    clone_fails := false, conflict_result := [("a", ["x"]), ("b", ["x"])],
    builds := fun _ => stdStatus, ans := stdAnswers }

/-! ### Characterizations of the individual phases -/

theorem promptPhase_error_cases (env : Env) (a : Abort)
    (h : promptPhase env = .error a) :
    a = .exited 1 ∨ a = .notImplemented ∨ a = .outOfAnswers := by
  unfold promptPhase at h
  split at h
  · simp at h
  · split at h <;> simp_all

theorem promptPhase_ok_of_noconfirm (env : Env) (h : env.args.noconfirm = true) :
    promptPhase env = .ok () := by
  unfold promptPhase
  simp [h]

theorem clonePhase_error_inv (env : Env) (d : List Event) (a : Abort)
    (h : clonePhase env = .error (d, a)) :
    d = [Event.cloneAttempt] ∧ a = .exited 1 := by
  unfold clonePhase at h
  split at h
  · simp at h
  · split at h
    · split at h <;> simp_all
    · simp at h

theorem clonePhase_events (env : Env) :
    ∀ e ∈ stepEvents (clonePhase env), e = Event.cloneAttempt := by
  unfold clonePhase
  split
  · simp [stepEvents]
  · split
    · split <;> simp [stepEvents]
    · simp [stepEvents]

theorem clonePhase_ok_of (env : Env) (h : env.clone_fails = false) :
    clonePhase env = .ok (if allAur env = [] then [] else [Event.cloneAttempt]) := by
  unfold clonePhase
  split
  · simp [*]
  · simp [h]

theorem askRemoveLoop_events (env : Env) (l : List (String × String)) :
    ∀ e ∈ stepEvents (askRemoveLoop env l), ∃ n c, e = Event.conflictPrompt n c := by
  induction l with
  | nil => simp [askRemoveLoop, stepEvents]
  | cons p rest ih =>
    obtain ⟨n, c⟩ := p
    unfold askRemoveLoop
    split
    · cases hrec : askRemoveLoop env rest with
      | error da =>
        obtain ⟨d, a⟩ := da
        rw [hrec] at ih
        simp only [stepEvents] at ih ⊢
        intro e he
        rcases List.mem_cons.mp he with rfl | h2
        · exact ⟨n, c, rfl⟩
        · exact ih e h2
      | ok d =>
        rw [hrec] at ih
        simp only [stepEvents] at ih ⊢
        intro e he
        rcases List.mem_cons.mp he with rfl | h2
        · exact ⟨n, c, rfl⟩
        · exact ih e h2
    · simp only [stepEvents]
      intro e he
      rcases List.mem_singleton.mp he with rfl
      exact ⟨n, c, rfl⟩

theorem askRemoveLoop_abort (env : Env) (l : List (String × String))
    (d : List Event) (a : Abort) (h : askRemoveLoop env l = .error (d, a)) :
    a = .exited 1 := by
  induction l generalizing d a with
  | nil => simp [askRemoveLoop] at h
  | cons p rest ih =>
    obtain ⟨n, c⟩ := p
    unfold askRemoveLoop at h
    split at h
    · cases hrec : askRemoveLoop env rest with
      | error da =>
        obtain ⟨d2, a2⟩ := da
        rw [hrec] at h
        simp only [Except.error.injEq, Prod.mk.injEq] at h
        exact h.2 ▸ ih d2 a2 hrec
      | ok d2 =>
        rw [hrec] at h
        simp at h
    · simp only [Except.error.injEq, Prod.mk.injEq] at h
      exact h.2.symm

theorem askRemoveLoop_ok_of (env : Env) (l : List (String × String))
    (h : ∀ p ∈ l, env.ans.removeConflict p.1 p.2 = true) :
    askRemoveLoop env l = .ok (l.map fun p => Event.conflictPrompt p.1 p.2) := by
  induction l with
  | nil => simp [askRemoveLoop]
  | cons p rest ih =>
    obtain ⟨n, c⟩ := p
    have h1 := h (n, c) (List.mem_cons_self _ _)
    have h2 : ∀ q ∈ rest, env.ans.removeConflict q.1 q.2 = true :=
      fun q hq => h q (List.mem_cons_of_mem _ hq)
    unfold askRemoveLoop
    simp [h1, ih h2]

theorem askRemoveLoop_declined (env : Env) (l : List (String × String))
    (h : ∃ p ∈ l, env.ans.removeConflict p.1 p.2 = false) :
    ∃ d, askRemoveLoop env l = .error (d, .exited 1) := by
  induction l with
  | nil => simp at h
  | cons p rest ih =>
    obtain ⟨n, c⟩ := p
    by_cases hn : env.ans.removeConflict n c = true
    · have hrest : ∃ q ∈ rest, env.ans.removeConflict q.1 q.2 = false := by
        rcases h with ⟨q, hq, hfq⟩
        rcases List.mem_cons.mp hq with rfl | hq1
        · rw [hn] at hfq; cases hfq
        · exact ⟨q, hq1, hfq⟩
      obtain ⟨d, hd⟩ := ih hrest
      refine ⟨Event.conflictPrompt n c :: d, ?_⟩
      unfold askRemoveLoop
      simp [hn, hd]
    · refine ⟨[Event.conflictPrompt n c], ?_⟩
      unfold askRemoveLoop
      simp [hn]

theorem conflictPhase_events (env : Env) :
    ∀ e ∈ stepEvents (conflictPhase env), ∃ n c, e = Event.conflictPrompt n c := by
  unfold conflictPhase
  split
  · simp [stepEvents]
  · split
    · simp [stepEvents]
    · exact askRemoveLoop_events env _

theorem conflictPhase_abort (env : Env) (d : List Event) (a : Abort)
    (h : conflictPhase env = .error (d, a)) : a = .exited 1 := by
  unfold conflictPhase at h
  split at h
  · simp at h
  · split at h
    · simp only [Except.error.injEq, Prod.mk.injEq] at h
      exact h.2.symm
    · exact askRemoveLoop_abort env _ d a h

theorem conflictPhase_newnew (env : Env) (h : hasNewNewConflict env = true) :
    conflictPhase env = .error ([], .exited 1) := by
  have hne : env.conflict_result ≠ [] := by
    intro h0
    simp [hasNewNewConflict, h0] at h
  unfold conflictPhase
  simp [hne, h]

theorem conflictPhase_ok_of (env : Env)
    (hnn : hasNewNewConflict env = false)
    (hap : ∀ p ∈ conflictPairs env, env.ans.removeConflict p.1 p.2 = true) :
    conflictPhase env
      = .ok ((conflictPairs env).map fun p => Event.conflictPrompt p.1 p.2) := by
  unfold conflictPhase
  split
  · rename_i h0
    simp [conflictPairs, h0]
  · simp [hnn, askRemoveLoop_ok_of env _ hap]

theorem reviewOne_events (env : Env) (n : String) :
    ∀ e ∈ stepEvents (reviewOne env n),
      e = Event.reviewed n ∨ e = Event.archChecked n := by
  unfold reviewOne
  split
  · simp [stepEvents]
  · split
    · simp [stepEvents]
    · split <;> simp [stepEvents]

theorem reviewOne_abort (env : Env) (n : String) (d : List Event) (a : Abort)
    (h : reviewOne env n = .error (d, a)) :
    a = .exited 1 ∨ a = .exited 2 := by
  unfold reviewOne at h
  split at h
  · simp at h
  · split at h
    · simp only [Except.error.injEq, Prod.mk.injEq] at h
      exact Or.inr h.2.symm
    · split at h
      · simp only [Except.error.injEq, Prod.mk.injEq] at h
        exact Or.inl h.2.symm
      · simp at h

theorem reviewOne_ok_names (env : Env) (n : String) (d : List Event)
    (h : reviewOne env n = .ok d) : reviewedNames d = [n] := by
  unfold reviewOne at h
  split at h
  · simp only [Except.ok.injEq] at h
    subst h
    simp [reviewedNames, reviewedName?]
  · split at h
    · simp at h
    · split at h
      · simp at h
      · simp only [Except.ok.injEq] at h
        subst h
        simp [reviewedNames, reviewedName?]

theorem reviewOne_abort_editor (env : Env) (n : String) (d : List Event) (a : Abort)
    (hed : env.ans.editor.isSome = true)
    (h : reviewOne env n = .error (d, a)) : a = .exited 1 := by
  rcases reviewOne_abort env n d a h with h1 | h1
  · exact h1
  · exfalso
    obtain ⟨e, he⟩ := Option.isSome_iff_exists.mp hed
    unfold reviewOne at h
    subst h1
    split at h
    · simp at h
    · split at h
      · rename_i hcond
        rw [he] at hcond
        simp at hcond
      · split at h
        · simp at h
        · simp at h

theorem reviewOne_badarch (env : Env) (n : String)
    (hed : env.ans.editor.isSome = true)
    (hskip : reviewSkip env n = false) (harch : archOk env n = false) :
    reviewOne env n = .error ([Event.reviewed n, Event.archChecked n], .exited 1) := by
  obtain ⟨e, he⟩ := Option.isSome_iff_exists.mp hed
  unfold reviewOne
  simp [he, hskip, harch]

theorem reviewLoop_events (env : Env) (l : List String) :
    ∀ e ∈ stepEvents (reviewLoop env l),
      ∃ n, e = Event.reviewed n ∨ e = Event.archChecked n := by
  induction l with
  | nil => simp [reviewLoop, stepEvents]
  | cons n rest ih =>
    unfold reviewLoop
    cases h1 : reviewOne env n with
    | error da =>
      obtain ⟨d, a⟩ := da
      simp only [stepEvents]
      intro e he
      exact ⟨n, reviewOne_events env n e (by simp [h1, stepEvents, he])⟩
    | ok d =>
      cases h2 : reviewLoop env rest with
      | error da =>
        obtain ⟨d2, a⟩ := da
        rw [h2] at ih
        simp only [stepEvents] at ih ⊢
        intro e he
        rcases List.mem_append.mp he with h3 | h3
        · exact ⟨n, reviewOne_events env n e (by simp [h1, stepEvents, h3])⟩
        · exact ih e h3
      | ok d2 =>
        rw [h2] at ih
        simp only [stepEvents] at ih ⊢
        intro e he
        rcases List.mem_append.mp he with h3 | h3
        · exact ⟨n, reviewOne_events env n e (by simp [h1, stepEvents, h3])⟩
        · exact ih e h3

theorem reviewLoop_abort (env : Env) (l : List String) (d : List Event) (a : Abort)
    (h : reviewLoop env l = .error (d, a)) :
    a = .exited 1 ∨ a = .exited 2 := by
  induction l generalizing d a with
  | nil => simp [reviewLoop] at h
  | cons n rest ih =>
    unfold reviewLoop at h
    cases h1 : reviewOne env n with
    | error da =>
      obtain ⟨d1, a1⟩ := da
      rw [h1] at h
      simp only [Except.error.injEq, Prod.mk.injEq] at h
      exact h.2 ▸ reviewOne_abort env n d1 a1 h1
    | ok d1 =>
      rw [h1] at h
      cases h2 : reviewLoop env rest with
      | error da =>
        obtain ⟨d2, a2⟩ := da
        rw [h2] at h
        simp only [Except.error.injEq, Prod.mk.injEq] at h
        exact h.2 ▸ ih d2 a2 h2
      | ok d2 =>
        rw [h2] at h
        simp at h

theorem reviewLoop_ok_names (env : Env) (l : List String) (d : List Event)
    (h : reviewLoop env l = .ok d) : reviewedNames d = l := by
  induction l generalizing d with
  | nil =>
    simp only [reviewLoop, Except.ok.injEq] at h
    subst h
    simp [reviewedNames]
  | cons n rest ih =>
    unfold reviewLoop at h
    cases h1 : reviewOne env n with
    | error da =>
      obtain ⟨d1, a1⟩ := da
      rw [h1] at h
      simp at h
    | ok d1 =>
      rw [h1] at h
      cases h2 : reviewLoop env rest with
      | error da =>
        obtain ⟨d2, a2⟩ := da
        rw [h2] at h
        simp at h
      | ok d2 =>
        rw [h2] at h
        simp only [Except.ok.injEq] at h
        subst h
        simp only [reviewedNames, List.filterMap_append]
        rw [← reviewedNames, ← reviewedNames, reviewOne_ok_names env n d1 h1, ih d2 h2]
        rfl

theorem reviewLoop_badarch (env : Env) (l : List String)
    (hed : env.ans.editor.isSome = true)
    (hbad : ∃ n ∈ l, reviewSkip env n = false ∧ archOk env n = false) :
    ∃ d, reviewLoop env l = .error (d, .exited 1) := by
  induction l with
  | nil => simp at hbad
  | cons n rest ih =>
    cases h1 : reviewOne env n with
    | error da =>
      obtain ⟨d1, a1⟩ := da
      have ha := reviewOne_abort_editor env n d1 a1 hed h1
      refine ⟨d1, ?_⟩
      unfold reviewLoop
      rw [h1, ha]
    | ok d1 =>
      have hrest : ∃ m ∈ rest, reviewSkip env m = false ∧ archOk env m = false := by
        rcases hbad with ⟨m, hm, hms, hma⟩
        rcases List.mem_cons.mp hm with rfl | hm1
        · rw [reviewOne_badarch env m hed hms hma] at h1
          cases h1
        · exact ⟨m, hm1, hms, hma⟩
      obtain ⟨d2, hd2⟩ := ih hrest
      refine ⟨d1 ++ d2, ?_⟩
      unfold reviewLoop
      rw [h1, hd2]

theorem reviewPhase_events (env : Env) :
    ∀ e ∈ stepEvents (reviewPhase env),
      ∃ n, e = Event.reviewed n ∨ e = Event.archChecked n := by
  unfold reviewPhase
  split
  · simp [stepEvents]
  · split
    · simp [stepEvents]
    · exact reviewLoop_events env _

theorem reviewPhase_abort (env : Env) (d : List Event) (a : Abort)
    (h : reviewPhase env = .error (d, a)) :
    a = .exited 1 ∨ a = .exited 2 ∨ a = .crashed := by
  unfold reviewPhase at h
  split at h
  · simp at h
  · split at h
    · simp only [Except.error.injEq, Prod.mk.injEq] at h
      exact Or.inr (Or.inr h.2.symm)
    · rcases reviewLoop_abort env _ d a h with h1 | h1
      · exact Or.inl h1
      · exact Or.inr (Or.inl h1)

theorem reviewPhase_ok_names (env : Env) (d : List Event)
    (h : reviewPhase env = .ok d) : reviewedNames d = (allAur env).reverse := by
  unfold reviewPhase at h
  split at h
  · rename_i h0
    simp only [Except.ok.injEq] at h
    subst h
    simp [reviewedNames, h0]
  · split at h
    · simp at h
    · exact reviewLoop_ok_names env _ d h

theorem buildEvents_shape (env : Env) :
    ∀ e ∈ buildEvents env, ∃ n ok, e = Event.build n ok := by
  intro e he
  simp only [buildEvents, List.mem_map] at he
  obtain ⟨n, _, rfl⟩ := he
  exact ⟨n, _, rfl⟩

theorem buildNames_buildEvents (env : Env) :
    buildNames (buildEvents env) = buildVisited env := by
  unfold buildNames buildEvents
  rw [List.filterMap_map]
  simp [Function.comp_def, buildName?]

theorem persistHash_mem_persistEvents (env : Env) (n : String) :
    Event.persistHash n ∈ persistEvents env
      ↔ n ∈ allAur env ∧ (builtPath env n).isSome = true := by
  unfold persistEvents
  split
  · rename_i h0
    simp [h0]
  · simp only [List.mem_filterMap]
    constructor
    · rintro ⟨m, hm, hfm⟩
      split at hfm
      · simp only [Option.some.injEq, Event.persistHash.injEq] at hfm
        subst hfm
        exact ⟨hm, by assumption⟩
      · cases hfm
    · rintro ⟨hm, hs⟩
      exact ⟨n, hm, by simp [hs]⟩

theorem persistEvents_shape (env : Env) :
    ∀ e ∈ persistEvents env,
      ∃ n, e = Event.persistHash n ∧ (builtPath env n).isSome = true := by
  intro e he
  unfold persistEvents at he
  split at he
  · simp at he
  · simp only [List.mem_filterMap] at he
    obtain ⟨m, _, hfm⟩ := he
    split at hfm
    · simp only [Option.some.injEq] at hfm
      exact ⟨m, hfm.symm, by assumption⟩
    · cases hfm

theorem summaryEvents_shape (env : Env) :
    ∀ e ∈ summaryEvents env,
      e = Event.failSummary (failedToBuild env) ∧ failedToBuild env ≠ [] := by
  intro e he
  unfold summaryEvents at he
  split at he
  · simp at he
  · rename_i h0
    rcases List.mem_singleton.mp he with rfl
    exact ⟨rfl, h0⟩

theorem removeStep_cases (env : Env) :
    (packagesToBeRemoved env = [] ∧ removeStep env = .ok [])
    ∨ (packagesToBeRemoved env ≠ []
      ∧ (removeStep env
            = .ok [Event.removeCmd (packagesToBeRemoved env) env.ans.removeOk]
        ∨ removeStep env
            = .error ([Event.removeCmd (packagesToBeRemoved env) env.ans.removeOk],
                .exited 1))) := by
  unfold removeStep stepCmd
  split
  · exact Or.inl ⟨by assumption, rfl⟩
  · refine Or.inr ⟨by assumption, ?_⟩
    split
    · exact Or.inl rfl
    · split
      · exact Or.inl rfl
      · exact Or.inr rfl

theorem repoStep_cases (env : Env) :
    (env.repo_packages_names = [] ∧ repoStep env = .ok [])
    ∨ (env.repo_packages_names ≠ []
      ∧ (repoStep env
            = .ok [Event.repoInstallCmd env.repo_packages_names env.ans.repoOk]
        ∨ repoStep env
            = .error ([Event.repoInstallCmd env.repo_packages_names env.ans.repoOk],
                .exited 1))) := by
  unfold repoStep stepCmd
  split
  · exact Or.inl ⟨by assumption, rfl⟩
  · refine Or.inr ⟨by assumption, ?_⟩
    split
    · exact Or.inl rfl
    · split
      · exact Or.inl rfl
      · exact Or.inr rfl

theorem depsStep_cases (env : Env) :
    (depsBatch env = [] ∧ depsStep env = .ok [])
    ∨ (depsBatch env ≠ []
      ∧ (depsStep env = .ok [Event.depsInstallCmd (depsBatch env) env.ans.depsOk]
        ∨ depsStep env
            = .error ([Event.depsInstallCmd (depsBatch env) env.ans.depsOk],
                .exited 1))) := by
  unfold depsStep stepCmd
  split
  · exact Or.inl ⟨by assumption, rfl⟩
  · refine Or.inr ⟨by assumption, ?_⟩
    split
    · exact Or.inl rfl
    · split
      · exact Or.inl rfl
      · exact Or.inr rfl

theorem explicitStep_cases (env : Env) :
    (explicitBatch env = [] ∧ explicitStep env = .ok [])
    ∨ (explicitBatch env ≠ []
      ∧ (explicitStep env
            = .ok [Event.explicitInstallCmd (explicitBatch env) env.ans.explicitOk]
        ∨ explicitStep env
            = .error ([Event.explicitInstallCmd (explicitBatch env) env.ans.explicitOk],
                .exited 1))) := by
  unfold explicitStep stepCmd
  split
  · exact Or.inl ⟨by assumption, rfl⟩
  · refine Or.inr ⟨by assumption, ?_⟩
    split
    · exact Or.inl rfl
    · split
      · exact Or.inl rfl
      · exact Or.inr rfl

/-- Exhaustive case analysis of a run: it aborts in one of the phases (with
the events accumulated so far) or returns normally, through the
download-only early return or the full pipeline. -/
theorem run_master (env : Env) :
    (∃ a, promptPhase env = .error a ∧ cli_install_packages env = .aborted a [])
    ∨ (∃ d a, clonePhase env = .error (d, a)
        ∧ cli_install_packages env = .aborted a d)
    ∨ (∃ d1 d a, clonePhase env = .ok d1 ∧ conflictPhase env = .error (d, a)
        ∧ cli_install_packages env = .aborted a (d1 ++ d))
    ∨ (∃ d1 d2 d a, clonePhase env = .ok d1 ∧ conflictPhase env = .ok d2
        ∧ reviewPhase env = .error (d, a)
        ∧ cli_install_packages env = .aborted a (d1 ++ d2 ++ d))
    ∨ (∃ d1 d2 d3 d a, clonePhase env = .ok d1 ∧ conflictPhase env = .ok d2
        ∧ reviewPhase env = .ok d3 ∧ removeStep env = .error (d, a)
        ∧ cli_install_packages env
            = .aborted a
                (d1 ++ d2 ++ d3 ++ [Event.sudoAcquired] ++ buildEvents env ++ d))
    ∨ (∃ d1 d2 d3 d5 d a, clonePhase env = .ok d1 ∧ conflictPhase env = .ok d2
        ∧ reviewPhase env = .ok d3 ∧ removeStep env = .ok d5
        ∧ repoStep env = .error (d, a)
        ∧ cli_install_packages env
            = .aborted a
                (d1 ++ d2 ++ d3 ++ [Event.sudoAcquired] ++ buildEvents env ++ d5 ++ d))
    ∨ (∃ d1 d2 d3 d5 d6, clonePhase env = .ok d1 ∧ conflictPhase env = .ok d2
        ∧ reviewPhase env = .ok d3 ∧ removeStep env = .ok d5
        ∧ repoStep env = .ok d6 ∧ env.args.downloadonly = true
        ∧ cli_install_packages env
            = .finished
                (d1 ++ d2 ++ d3 ++ [Event.sudoAcquired] ++ buildEvents env ++ d5 ++ d6))
    ∨ (∃ d1 d2 d3 d5 d6 d a, clonePhase env = .ok d1 ∧ conflictPhase env = .ok d2
        ∧ reviewPhase env = .ok d3 ∧ removeStep env = .ok d5
        ∧ repoStep env = .ok d6 ∧ env.args.downloadonly = false
        ∧ depsStep env = .error (d, a)
        ∧ cli_install_packages env
            = .aborted a
                (d1 ++ d2 ++ d3 ++ [Event.sudoAcquired] ++ buildEvents env
                  ++ d5 ++ d6 ++ d))
    ∨ (∃ d1 d2 d3 d5 d6 d7 d a, clonePhase env = .ok d1 ∧ conflictPhase env = .ok d2
        ∧ reviewPhase env = .ok d3 ∧ removeStep env = .ok d5
        ∧ repoStep env = .ok d6 ∧ env.args.downloadonly = false
        ∧ depsStep env = .ok d7 ∧ explicitStep env = .error (d, a)
        ∧ cli_install_packages env
            = .aborted a
                (d1 ++ d2 ++ d3 ++ [Event.sudoAcquired] ++ buildEvents env
                  ++ d5 ++ d6 ++ d7 ++ d))
    ∨ (∃ d1 d2 d3 d5 d6 d7 d8, clonePhase env = .ok d1 ∧ conflictPhase env = .ok d2
        ∧ reviewPhase env = .ok d3 ∧ removeStep env = .ok d5
        ∧ repoStep env = .ok d6 ∧ env.args.downloadonly = false
        ∧ depsStep env = .ok d7 ∧ explicitStep env = .ok d8
        ∧ cli_install_packages env
            = .finished
                (d1 ++ d2 ++ d3 ++ [Event.sudoAcquired] ++ buildEvents env
                  ++ d5 ++ d6 ++ d7 ++ d8 ++ persistEvents env ++ summaryEvents env)) := by
  unfold cli_install_packages
  cases hp : promptPhase env with
  | error a => exact Or.inl ⟨a, rfl, rfl⟩
  | ok u =>
  cases hc : clonePhase env with
  | error da =>
    obtain ⟨d, a⟩ := da
    exact Or.inr (Or.inl ⟨d, a, rfl, rfl⟩)
  | ok d1 =>
  cases hf : conflictPhase env with
  | error da =>
    obtain ⟨d, a⟩ := da
    exact Or.inr (Or.inr (Or.inl ⟨d1, d, a, rfl, rfl, rfl⟩))
  | ok d2 =>
  cases hr : reviewPhase env with
  | error da =>
    obtain ⟨d, a⟩ := da
    exact Or.inr (Or.inr (Or.inr (Or.inl ⟨d1, d2, d, a, rfl, rfl, rfl, rfl⟩)))
  | ok d3 =>
  cases h5 : removeStep env with
  | error da =>
    obtain ⟨d, a⟩ := da
    exact Or.inr (Or.inr (Or.inr (Or.inr (Or.inl
      ⟨d1, d2, d3, d, a, rfl, rfl, rfl, rfl, rfl⟩))))
  | ok d5 =>
  cases h6 : repoStep env with
  | error da =>
    obtain ⟨d, a⟩ := da
    exact Or.inr (Or.inr (Or.inr (Or.inr (Or.inr (Or.inl
      ⟨d1, d2, d3, d5, d, a, rfl, rfl, rfl, rfl, rfl, rfl⟩)))))
  | ok d6 =>
  by_cases hdl : env.args.downloadonly = true
  · exact Or.inr (Or.inr (Or.inr (Or.inr (Or.inr (Or.inr (Or.inl
      ⟨d1, d2, d3, d5, d6, rfl, rfl, rfl, rfl, rfl, hdl, if_pos hdl⟩))))))
  · have hdl2 : env.args.downloadonly = false := Bool.not_eq_true _ ▸ hdl
    cases h7 : depsStep env with
    | error da =>
      obtain ⟨d, a⟩ := da
      refine Or.inr (Or.inr (Or.inr (Or.inr (Or.inr (Or.inr (Or.inr (Or.inl
        ⟨d1, d2, d3, d5, d6, d, a, rfl, rfl, rfl, rfl, rfl, hdl2, rfl, ?_⟩)))))))
      simp [hdl2]
    | ok d7 =>
    cases h8 : explicitStep env with
    | error da =>
      obtain ⟨d, a⟩ := da
      refine Or.inr (Or.inr (Or.inr (Or.inr (Or.inr (Or.inr (Or.inr (Or.inr (Or.inl
        ⟨d1, d2, d3, d5, d6, d7, d, a, rfl, rfl, rfl, rfl, rfl, hdl2, rfl, rfl, ?_⟩))))))))
      simp [hdl2]
    | ok d8 =>
      refine Or.inr (Or.inr (Or.inr (Or.inr (Or.inr (Or.inr (Or.inr (Or.inr (Or.inr
        ⟨d1, d2, d3, d5, d6, d7, d8, rfl, rfl, rfl, rfl, rfl, hdl2, rfl, rfl, ?_⟩))))))))
      simp [hdl2]

theorem removeStep_events (env : Env) :
    ∀ e ∈ stepEvents (removeStep env),
      e = Event.removeCmd (packagesToBeRemoved env) env.ans.removeOk
        ∧ packagesToBeRemoved env ≠ [] := by
  rcases removeStep_cases env with ⟨h1, h2⟩ | ⟨h1, h2 | h2⟩ <;> rw [h2] <;>
    simp [stepEvents, h1]

theorem repoStep_events (env : Env) :
    ∀ e ∈ stepEvents (repoStep env),
      e = Event.repoInstallCmd env.repo_packages_names env.ans.repoOk
        ∧ env.repo_packages_names ≠ [] := by
  rcases repoStep_cases env with ⟨h1, h2⟩ | ⟨h1, h2 | h2⟩ <;> rw [h2] <;>
    simp [stepEvents, h1]

theorem depsStep_events (env : Env) :
    ∀ e ∈ stepEvents (depsStep env),
      e = Event.depsInstallCmd (depsBatch env) env.ans.depsOk
        ∧ depsBatch env ≠ [] := by
  rcases depsStep_cases env with ⟨h1, h2⟩ | ⟨h1, h2 | h2⟩ <;> rw [h2] <;>
    simp [stepEvents, h1]

theorem explicitStep_events (env : Env) :
    ∀ e ∈ stepEvents (explicitStep env),
      e = Event.explicitInstallCmd (explicitBatch env) env.ans.explicitOk
        ∧ explicitBatch env ≠ [] := by
  rcases explicitStep_cases env with ⟨h1, h2⟩ | ⟨h1, h2 | h2⟩ <;> rw [h2] <;>
    simp [stepEvents, h1]

theorem removeStep_abort (env : Env) (d : List Event) (a : Abort)
    (h : removeStep env = .error (d, a)) : a = .exited 1 := by
  rcases removeStep_cases env with ⟨_, h2⟩ | ⟨_, h2 | h2⟩ <;> rw [h] at h2 <;>
    simp_all

theorem repoStep_abort (env : Env) (d : List Event) (a : Abort)
    (h : repoStep env = .error (d, a)) : a = .exited 1 := by
  rcases repoStep_cases env with ⟨_, h2⟩ | ⟨_, h2 | h2⟩ <;> rw [h] at h2 <;>
    simp_all

theorem depsStep_abort (env : Env) (d : List Event) (a : Abort)
    (h : depsStep env = .error (d, a)) : a = .exited 1 := by
  rcases depsStep_cases env with ⟨_, h2⟩ | ⟨_, h2 | h2⟩ <;> rw [h] at h2 <;>
    simp_all

theorem explicitStep_abort (env : Env) (d : List Event) (a : Abort)
    (h : explicitStep env = .error (d, a)) : a = .exited 1 := by
  rcases explicitStep_cases env with ⟨_, h2⟩ | ⟨_, h2 | h2⟩ <;> rw [h] at h2 <;>
    simp_all

/-- Every event of a run trace has one of the pipeline's event shapes, with
the payloads of the privileged commands, of the persisted hashes and of the
failure summary determined by the environment, and each privileged command
present only when its input is non-empty. -/
theorem run_trace_shape (env : Env) :
    ∀ e ∈ (cli_install_packages env).trace,
      e = Event.cloneAttempt
      ∨ (∃ n c, e = Event.conflictPrompt n c)
      ∨ (∃ n, e = Event.reviewed n ∨ e = Event.archChecked n)
      ∨ e = Event.sudoAcquired
      ∨ (∃ n ok, e = Event.build n ok)
      ∨ (e = Event.removeCmd (packagesToBeRemoved env) env.ans.removeOk
          ∧ packagesToBeRemoved env ≠ [])
      ∨ (e = Event.repoInstallCmd env.repo_packages_names env.ans.repoOk
          ∧ env.repo_packages_names ≠ [])
      ∨ (e = Event.depsInstallCmd (depsBatch env) env.ans.depsOk
          ∧ depsBatch env ≠ [])
      ∨ (e = Event.explicitInstallCmd (explicitBatch env) env.ans.explicitOk
          ∧ explicitBatch env ≠ [])
      ∨ (∃ n, e = Event.persistHash n ∧ (builtPath env n).isSome = true)
      ∨ (e = Event.failSummary (failedToBuild env) ∧ failedToBuild env ≠ []) := by
  have hclone : ∀ d1, clonePhase env = .ok d1 →
      ∀ e ∈ d1, e = Event.cloneAttempt := by
    intro d1 h1 e he
    exact clonePhase_events env e (by rw [h1]; exact he)
  have hconf : ∀ d2, conflictPhase env = .ok d2 →
      ∀ e ∈ d2, ∃ n c, e = Event.conflictPrompt n c := by
    intro d2 h2 e he
    exact conflictPhase_events env e (by rw [h2]; exact he)
  have hrev : ∀ d3, reviewPhase env = .ok d3 →
      ∀ e ∈ d3, ∃ n, e = Event.reviewed n ∨ e = Event.archChecked n := by
    intro d3 h3 e he
    exact reviewPhase_events env e (by rw [h3]; exact he)
  have hconfE : ∀ d2 a, conflictPhase env = .error (d2, a) →
      ∀ e ∈ d2, ∃ n c, e = Event.conflictPrompt n c := by
    intro d2 a h2 e he
    exact conflictPhase_events env e (by rw [h2]; exact he)
  have hrevE : ∀ d3 a, reviewPhase env = .error (d3, a) →
      ∀ e ∈ d3, ∃ n, e = Event.reviewed n ∨ e = Event.archChecked n := by
    intro d3 a h3 e he
    exact reviewPhase_events env e (by rw [h3]; exact he)
  have hrem : ∀ d, (removeStep env = .ok d ∨ ∃ a, removeStep env = .error (d, a)) →
      ∀ e ∈ d, e = Event.removeCmd (packagesToBeRemoved env) env.ans.removeOk
        ∧ packagesToBeRemoved env ≠ [] := by
    rintro d (h5 | ⟨a, h5⟩) e he <;>
      exact removeStep_events env e (by rw [h5]; exact he)
  have hrepo : ∀ d, (repoStep env = .ok d ∨ ∃ a, repoStep env = .error (d, a)) →
      ∀ e ∈ d, e = Event.repoInstallCmd env.repo_packages_names env.ans.repoOk
        ∧ env.repo_packages_names ≠ [] := by
    rintro d (h5 | ⟨a, h5⟩) e he <;>
      exact repoStep_events env e (by rw [h5]; exact he)
  have hdeps : ∀ d, (depsStep env = .ok d ∨ ∃ a, depsStep env = .error (d, a)) →
      ∀ e ∈ d, e = Event.depsInstallCmd (depsBatch env) env.ans.depsOk
        ∧ depsBatch env ≠ [] := by
    rintro d (h5 | ⟨a, h5⟩) e he <;>
      exact depsStep_events env e (by rw [h5]; exact he)
  have hexp : ∀ d, (explicitStep env = .ok d ∨ ∃ a, explicitStep env = .error (d, a)) →
      ∀ e ∈ d, e = Event.explicitInstallCmd (explicitBatch env) env.ans.explicitOk
        ∧ explicitBatch env ≠ [] := by
    rintro d (h5 | ⟨a, h5⟩) e he <;>
      exact explicitStep_events env e (by rw [h5]; exact he)
  have hbuild := buildEvents_shape env
  have hpers := persistEvents_shape env
  have hsum := summaryEvents_shape env
  rcases run_master env with
      ⟨a, hp, hrun⟩ | ⟨d, a, hc, hrun⟩ | ⟨d1, d, a, hc, hf, hrun⟩
    | ⟨d1, d2, d, a, hc, hf, hr, hrun⟩
    | ⟨d1, d2, d3, d, a, hc, hf, hr, h5, hrun⟩
    | ⟨d1, d2, d3, d5, d, a, hc, hf, hr, h5, h6, hrun⟩
    | ⟨d1, d2, d3, d5, d6, hc, hf, hr, h5, h6, hdl, hrun⟩
    | ⟨d1, d2, d3, d5, d6, d, a, hc, hf, hr, h5, h6, hdl, h7, hrun⟩
    | ⟨d1, d2, d3, d5, d6, d7, d, a, hc, hf, hr, h5, h6, hdl, h7, h8, hrun⟩
    | ⟨d1, d2, d3, d5, d6, d7, d8, hc, hf, hr, h5, h6, hdl, h7, h8, hrun⟩ <;>
    rw [hrun] <;> intro e he <;> simp only [RunResult.trace, List.mem_append] at he
  · rcases he
  · have := clonePhase_error_inv env d a hc
    rw [this.1] at he
    rcases List.mem_singleton.mp he with rfl
    exact Or.inl rfl
  · rcases he with he | he
    · exact Or.inl (hclone d1 hc e he)
    · exact Or.inr (Or.inl (hconfE d a hf e he))
  · rcases he with (he | he) | he
    · exact Or.inl (hclone d1 hc e he)
    · exact Or.inr (Or.inl (hconf d2 hf e he))
    · exact Or.inr (Or.inr (Or.inl (hrevE d a hr e he)))
  · rcases he with ((((he | he) | he) | he) | he) | he
    · exact Or.inl (hclone d1 hc e he)
    · exact Or.inr (Or.inl (hconf d2 hf e he))
    · exact Or.inr (Or.inr (Or.inl (hrev d3 hr e he)))
    · rcases List.mem_singleton.mp he with rfl
      exact Or.inr (Or.inr (Or.inr (Or.inl rfl)))
    · exact Or.inr (Or.inr (Or.inr (Or.inr (Or.inl (hbuild e he)))))
    · exact Or.inr (Or.inr (Or.inr (Or.inr (Or.inr (Or.inl
        (hrem d (Or.inr ⟨a, h5⟩) e he))))))
  · rcases he with (((((he | he) | he) | he) | he) | he) | he
    · exact Or.inl (hclone d1 hc e he)
    · exact Or.inr (Or.inl (hconf d2 hf e he))
    · exact Or.inr (Or.inr (Or.inl (hrev d3 hr e he)))
    · rcases List.mem_singleton.mp he with rfl
      exact Or.inr (Or.inr (Or.inr (Or.inl rfl)))
    · exact Or.inr (Or.inr (Or.inr (Or.inr (Or.inl (hbuild e he)))))
    · exact Or.inr (Or.inr (Or.inr (Or.inr (Or.inr (Or.inl
        (hrem d5 (Or.inl h5) e he))))))
    · exact Or.inr (Or.inr (Or.inr (Or.inr (Or.inr (Or.inr (Or.inl
        (hrepo d (Or.inr ⟨a, h6⟩) e he)))))))
  · rcases he with (((((he | he) | he) | he) | he) | he) | he
    · exact Or.inl (hclone d1 hc e he)
    · exact Or.inr (Or.inl (hconf d2 hf e he))
    · exact Or.inr (Or.inr (Or.inl (hrev d3 hr e he)))
    · rcases List.mem_singleton.mp he with rfl
      exact Or.inr (Or.inr (Or.inr (Or.inl rfl)))
    · exact Or.inr (Or.inr (Or.inr (Or.inr (Or.inl (hbuild e he)))))
    · exact Or.inr (Or.inr (Or.inr (Or.inr (Or.inr (Or.inl
        (hrem d5 (Or.inl h5) e he))))))
    · exact Or.inr (Or.inr (Or.inr (Or.inr (Or.inr (Or.inr (Or.inl
        (hrepo d6 (Or.inl h6) e he)))))))
  · rcases he with ((((((he | he) | he) | he) | he) | he) | he) | he
    · exact Or.inl (hclone d1 hc e he)
    · exact Or.inr (Or.inl (hconf d2 hf e he))
    · exact Or.inr (Or.inr (Or.inl (hrev d3 hr e he)))
    · rcases List.mem_singleton.mp he with rfl
      exact Or.inr (Or.inr (Or.inr (Or.inl rfl)))
    · exact Or.inr (Or.inr (Or.inr (Or.inr (Or.inl (hbuild e he)))))
    · exact Or.inr (Or.inr (Or.inr (Or.inr (Or.inr (Or.inl
        (hrem d5 (Or.inl h5) e he))))))
    · exact Or.inr (Or.inr (Or.inr (Or.inr (Or.inr (Or.inr (Or.inl
        (hrepo d6 (Or.inl h6) e he)))))))
    · exact Or.inr (Or.inr (Or.inr (Or.inr (Or.inr (Or.inr (Or.inr (Or.inl
        (hdeps d (Or.inr ⟨a, h7⟩) e he))))))))
  · rcases he with (((((((he | he) | he) | he) | he) | he) | he) | he) | he
    · exact Or.inl (hclone d1 hc e he)
    · exact Or.inr (Or.inl (hconf d2 hf e he))
    · exact Or.inr (Or.inr (Or.inl (hrev d3 hr e he)))
    · rcases List.mem_singleton.mp he with rfl
      exact Or.inr (Or.inr (Or.inr (Or.inl rfl)))
    · exact Or.inr (Or.inr (Or.inr (Or.inr (Or.inl (hbuild e he)))))
    · exact Or.inr (Or.inr (Or.inr (Or.inr (Or.inr (Or.inl
        (hrem d5 (Or.inl h5) e he))))))
    · exact Or.inr (Or.inr (Or.inr (Or.inr (Or.inr (Or.inr (Or.inl
        (hrepo d6 (Or.inl h6) e he)))))))
    · exact Or.inr (Or.inr (Or.inr (Or.inr (Or.inr (Or.inr (Or.inr (Or.inl
        (hdeps d7 (Or.inl h7) e he))))))))
    · exact Or.inr (Or.inr (Or.inr (Or.inr (Or.inr (Or.inr (Or.inr (Or.inr (Or.inl
        (hexp d (Or.inr ⟨a, h8⟩) e he)))))))))
  · rcases he with
      (((((((((he | he) | he) | he) | he) | he) | he) | he) | he) | he) | he
    · exact Or.inl (hclone d1 hc e he)
    · exact Or.inr (Or.inl (hconf d2 hf e he))
    · exact Or.inr (Or.inr (Or.inl (hrev d3 hr e he)))
    · rcases List.mem_singleton.mp he with rfl
      exact Or.inr (Or.inr (Or.inr (Or.inl rfl)))
    · exact Or.inr (Or.inr (Or.inr (Or.inr (Or.inl (hbuild e he)))))
    · exact Or.inr (Or.inr (Or.inr (Or.inr (Or.inr (Or.inl
        (hrem d5 (Or.inl h5) e he))))))
    · exact Or.inr (Or.inr (Or.inr (Or.inr (Or.inr (Or.inr (Or.inl
        (hrepo d6 (Or.inl h6) e he)))))))
    · exact Or.inr (Or.inr (Or.inr (Or.inr (Or.inr (Or.inr (Or.inr (Or.inl
        (hdeps d7 (Or.inl h7) e he))))))))
    · exact Or.inr (Or.inr (Or.inr (Or.inr (Or.inr (Or.inr (Or.inr (Or.inr (Or.inl
        (hexp d8 (Or.inl h8) e he)))))))))
    · exact Or.inr (Or.inr (Or.inr (Or.inr (Or.inr (Or.inr (Or.inr (Or.inr (Or.inr
        (Or.inl (hpers e he))))))))))
    · exact Or.inr (Or.inr (Or.inr (Or.inr (Or.inr (Or.inr (Or.inr (Or.inr (Or.inr
        (Or.inr (hsum e he))))))))))

theorem reviewedNames_append (l m : List Event) :
    reviewedNames (l ++ m) = reviewedNames l ++ reviewedNames m :=
  List.filterMap_append l m reviewedName?

theorem buildNames_append (l m : List Event) :
    buildNames (l ++ m) = buildNames l ++ buildNames m :=
  List.filterMap_append l m buildName?

theorem promptPairs_append (l m : List Event) :
    promptPairs (l ++ m) = promptPairs l ++ promptPairs m :=
  List.filterMap_append l m promptPair?

theorem cloneSeg_facts (env : Env) (d : List Event) (hc : clonePhase env = .ok d) :
    reviewedNames d = [] ∧ buildNames d = [] ∧ promptPairs d = []
    ∧ (∀ n, Event.persistHash n ∉ d) ∧ (∀ l, Event.failSummary l ∉ d) := by
  have hs : ∀ e ∈ d, e = Event.cloneAttempt :=
    fun e he => clonePhase_events env e (by rw [hc]; exact he)
  refine ⟨List.filterMap_eq_nil_iff.mpr fun e he => by rw [hs e he]; rfl,
    List.filterMap_eq_nil_iff.mpr fun e he => by rw [hs e he]; rfl,
    List.filterMap_eq_nil_iff.mpr fun e he => by rw [hs e he]; rfl,
    fun n hn => by have := hs _ hn; simp at this,
    fun l hl => by have := hs _ hl; simp at this⟩

theorem confSeg_facts (env : Env) (d : List Event) (hf : conflictPhase env = .ok d) :
    reviewedNames d = [] ∧ buildNames d = []
    ∧ (∀ n, Event.persistHash n ∉ d) ∧ (∀ l, Event.failSummary l ∉ d) := by
  have hs : ∀ e ∈ d, ∃ n c, e = Event.conflictPrompt n c :=
    fun e he => conflictPhase_events env e (by rw [hf]; exact he)
  refine ⟨List.filterMap_eq_nil_iff.mpr fun e he => ?_,
    List.filterMap_eq_nil_iff.mpr fun e he => ?_,
    fun n hn => ?_, fun l hl => ?_⟩
  · obtain ⟨n, c, rfl⟩ := hs e he; rfl
  · obtain ⟨n, c, rfl⟩ := hs e he; rfl
  · obtain ⟨m, c, h2⟩ := hs _ hn; simp at h2
  · obtain ⟨m, c, h2⟩ := hs _ hl; simp at h2

theorem revSeg_facts (env : Env) (d : List Event) (hr : reviewPhase env = .ok d) :
    reviewedNames d = (allAur env).reverse ∧ buildNames d = [] ∧ promptPairs d = []
    ∧ (∀ n, Event.persistHash n ∉ d) ∧ (∀ l, Event.failSummary l ∉ d) := by
  have hs : ∀ e ∈ d, ∃ n, e = Event.reviewed n ∨ e = Event.archChecked n :=
    fun e he => reviewPhase_events env e (by rw [hr]; exact he)
  refine ⟨reviewPhase_ok_names env d hr,
    List.filterMap_eq_nil_iff.mpr fun e he => ?_,
    List.filterMap_eq_nil_iff.mpr fun e he => ?_,
    fun n hn => ?_, fun l hl => ?_⟩
  · obtain ⟨n, rfl | rfl⟩ := hs e he <;> rfl
  · obtain ⟨n, rfl | rfl⟩ := hs e he <;> rfl
  · obtain ⟨m, h2 | h2⟩ := hs _ hn <;> simp at h2
  · obtain ⟨m, h2 | h2⟩ := hs _ hl <;> simp at h2

theorem buildSeg_facts (env : Env) :
    reviewedNames (buildEvents env) = [] ∧ promptPairs (buildEvents env) = []
    ∧ (∀ n, Event.persistHash n ∉ buildEvents env)
    ∧ (∀ l, Event.failSummary l ∉ buildEvents env) := by
  have hs := buildEvents_shape env
  refine ⟨List.filterMap_eq_nil_iff.mpr fun e he => ?_,
    List.filterMap_eq_nil_iff.mpr fun e he => ?_,
    fun n hn => ?_, fun l hl => ?_⟩
  · obtain ⟨n, ok, rfl⟩ := hs e he; rfl
  · obtain ⟨n, ok, rfl⟩ := hs e he; rfl
  · obtain ⟨m, ok, h2⟩ := hs _ hn; simp at h2
  · obtain ⟨m, ok, h2⟩ := hs _ hl; simp at h2

theorem cmdSeg_facts (d : List Event)
    (h : ∀ e ∈ d,
      (∃ ps ok, e = Event.removeCmd ps ok) ∨ (∃ ps ok, e = Event.repoInstallCmd ps ok)
      ∨ (∃ ps ok, e = Event.depsInstallCmd ps ok)
      ∨ (∃ ps ok, e = Event.explicitInstallCmd ps ok)) :
    reviewedNames d = [] ∧ buildNames d = [] ∧ promptPairs d = []
    ∧ (∀ n, Event.persistHash n ∉ d) ∧ (∀ l, Event.failSummary l ∉ d) := by
  refine ⟨List.filterMap_eq_nil_iff.mpr fun e he => ?_,
    List.filterMap_eq_nil_iff.mpr fun e he => ?_,
    List.filterMap_eq_nil_iff.mpr fun e he => ?_,
    fun n hn => ?_, fun l hl => ?_⟩
  · rcases h e he with ⟨ps, ok, rfl⟩ | ⟨ps, ok, rfl⟩ | ⟨ps, ok, rfl⟩ | ⟨ps, ok, rfl⟩ <;> rfl
  · rcases h e he with ⟨ps, ok, rfl⟩ | ⟨ps, ok, rfl⟩ | ⟨ps, ok, rfl⟩ | ⟨ps, ok, rfl⟩ <;> rfl
  · rcases h e he with ⟨ps, ok, rfl⟩ | ⟨ps, ok, rfl⟩ | ⟨ps, ok, rfl⟩ | ⟨ps, ok, rfl⟩ <;> rfl
  · rcases h _ hn with ⟨ps, ok, h2⟩ | ⟨ps, ok, h2⟩ | ⟨ps, ok, h2⟩ | ⟨ps, ok, h2⟩ <;> simp at h2
  · rcases h _ hl with ⟨ps, ok, h2⟩ | ⟨ps, ok, h2⟩ | ⟨ps, ok, h2⟩ | ⟨ps, ok, h2⟩ <;> simp at h2

theorem persistSeg_facts (env : Env) :
    reviewedNames (persistEvents env) = [] ∧ buildNames (persistEvents env) = []
    ∧ promptPairs (persistEvents env) = []
    ∧ (∀ l, Event.failSummary l ∉ persistEvents env) := by
  have hs := persistEvents_shape env
  refine ⟨List.filterMap_eq_nil_iff.mpr fun e he => ?_,
    List.filterMap_eq_nil_iff.mpr fun e he => ?_,
    List.filterMap_eq_nil_iff.mpr fun e he => ?_,
    fun l hl => ?_⟩
  · obtain ⟨n, rfl, _⟩ := hs e he; rfl
  · obtain ⟨n, rfl, _⟩ := hs e he; rfl
  · obtain ⟨n, rfl, _⟩ := hs e he; rfl
  · obtain ⟨m, h2, _⟩ := hs _ hl; simp at h2

theorem summarySeg_facts (env : Env) :
    reviewedNames (summaryEvents env) = [] ∧ buildNames (summaryEvents env) = []
    ∧ promptPairs (summaryEvents env) = []
    ∧ (∀ n, Event.persistHash n ∉ summaryEvents env) := by
  have hs := summaryEvents_shape env
  refine ⟨List.filterMap_eq_nil_iff.mpr fun e he => ?_,
    List.filterMap_eq_nil_iff.mpr fun e he => ?_,
    List.filterMap_eq_nil_iff.mpr fun e he => ?_,
    fun n hn => ?_⟩
  · obtain ⟨rfl, _⟩ := hs e he; rfl
  · obtain ⟨rfl, _⟩ := hs e he; rfl
  · obtain ⟨rfl, _⟩ := hs e he; rfl
  · obtain ⟨h2, _⟩ := hs _ hn; simp at h2

theorem buildVisited_of_not_needed (env : Env) (h : env.args.needed = false) :
    buildVisited env = (allAur env).reverse := by
  unfold buildVisited buildSkip
  rw [h]
  simp

theorem reviewedNames_sudo (l : List Event) :
    reviewedNames (Event.sudoAcquired :: l) = reviewedNames l := rfl

theorem buildNames_sudo (l : List Event) :
    buildNames (Event.sudoAcquired :: l) = buildNames l := rfl

theorem promptPairs_sudo (l : List Event) :
    promptPairs (Event.sudoAcquired :: l) = promptPairs l := rfl

/-- Trace of a normally finished run: the review pass visits exactly the
reversed AUR list, the build pass visits exactly `buildVisited`, a hash is
persisted exactly for the AUR packages whose artifact path was set (when not
in download-only mode), and a non-empty failure list is summarised (when not
in download-only mode). -/
theorem run_finished_names (env : Env) (tr : List Event)
    (hfin : cli_install_packages env = .finished tr) :
    reviewedNames tr = (allAur env).reverse
    ∧ buildNames tr = buildVisited env
    ∧ (env.args.downloadonly = false → ∀ n,
        (Event.persistHash n ∈ tr ↔ n ∈ allAur env ∧ (builtPath env n).isSome = true))
    ∧ (env.args.downloadonly = false → failedToBuild env ≠ [] →
        Event.failSummary (failedToBuild env) ∈ tr) := by
  rcases run_master env with
      ⟨a, hp, hrun⟩ | ⟨d, a, hc, hrun⟩ | ⟨d1, d, a, hc, hf, hrun⟩
    | ⟨d1, d2, d, a, hc, hf, hr, hrun⟩
    | ⟨d1, d2, d3, d, a, hc, hf, hr, h5, hrun⟩
    | ⟨d1, d2, d3, d5, d, a, hc, hf, hr, h5, h6, hrun⟩
    | ⟨d1, d2, d3, d5, d6, hc, hf, hr, h5, h6, hdl, hrun⟩
    | ⟨d1, d2, d3, d5, d6, d, a, hc, hf, hr, h5, h6, hdl, h7, hrun⟩
    | ⟨d1, d2, d3, d5, d6, d7, d, a, hc, hf, hr, h5, h6, hdl, h7, h8, hrun⟩
    | ⟨d1, d2, d3, d5, d6, d7, d8, hc, hf, hr, h5, h6, hdl, h7, h8, hrun⟩
  · rw [hrun] at hfin; simp at hfin
  · rw [hrun] at hfin; simp at hfin
  · rw [hrun] at hfin; simp at hfin
  · rw [hrun] at hfin; simp at hfin
  · rw [hrun] at hfin; simp at hfin
  · rw [hrun] at hfin; simp at hfin
  · -- download-only early return
    rw [hrun] at hfin
    injection hfin with htr
    subst htr
    have c1 := cloneSeg_facts env d1 hc
    have c2 := confSeg_facts env d2 hf
    have c3 := revSeg_facts env d3 hr
    have cb := buildSeg_facts env
    have c5 := cmdSeg_facts d5 fun e he =>
      Or.inl ⟨_, _, (removeStep_events env e (by rw [h5]; exact he)).1⟩
    have c6 := cmdSeg_facts d6 fun e he =>
      Or.inr (Or.inl ⟨_, _, (repoStep_events env e (by rw [h6]; exact he)).1⟩)
    refine ⟨?_, ?_, ?_, ?_⟩
    · simp [reviewedNames_append, c1.1, c2.1, c3.1, reviewedNames_sudo, cb.1,
        c5.1, c6.1]
    · simp [buildNames_append, c1.2.1, c2.2.1, c3.2.1, buildNames_sudo,
        buildNames_buildEvents, c5.2.1, c6.2.1]
    · intro hdf
      rw [hdl] at hdf
      cases hdf
    · intro hdf
      rw [hdl] at hdf
      cases hdf
  · rw [hrun] at hfin; simp at hfin
  · rw [hrun] at hfin; simp at hfin
  · -- full pipeline
    rw [hrun] at hfin
    injection hfin with htr
    subst htr
    have c1 := cloneSeg_facts env d1 hc
    have c2 := confSeg_facts env d2 hf
    have c3 := revSeg_facts env d3 hr
    have cb := buildSeg_facts env
    have c5 := cmdSeg_facts d5 fun e he =>
      Or.inl ⟨_, _, (removeStep_events env e (by rw [h5]; exact he)).1⟩
    have c6 := cmdSeg_facts d6 fun e he =>
      Or.inr (Or.inl ⟨_, _, (repoStep_events env e (by rw [h6]; exact he)).1⟩)
    have c7 := cmdSeg_facts d7 fun e he =>
      Or.inr (Or.inr (Or.inl ⟨_, _, (depsStep_events env e (by rw [h7]; exact he)).1⟩))
    have c8 := cmdSeg_facts d8 fun e he =>
      Or.inr (Or.inr (Or.inr ⟨_, _, (explicitStep_events env e (by rw [h8]; exact he)).1⟩))
    have cp := persistSeg_facts env
    have cs := summarySeg_facts env
    refine ⟨?_, ?_, ?_, ?_⟩
    · simp [reviewedNames_append, c1.1, c2.1, c3.1, reviewedNames_sudo, cb.1,
        c5.1, c6.1, c7.1, c8.1, cp.1, cs.1]
    · simp [buildNames_append, c1.2.1, c2.2.1, c3.2.1, buildNames_sudo,
        buildNames_buildEvents, c5.2.1, c6.2.1, c7.2.1, c8.2.1, cp.2.1, cs.2.1]
    · intro _ n
      constructor
      · intro hmem
        simp only [List.mem_append] at hmem
        rcases hmem with
          (((((((((hm | hm) | hm) | hm) | hm) | hm) | hm) | hm) | hm) | hm) | hm
        · exact absurd hm (c1.2.2.2.1 n)
        · exact absurd hm (c2.2.2.1 n)
        · exact absurd hm (c3.2.2.2.1 n)
        · simp at hm
        · exact absurd hm (cb.2.2.1 n)
        · exact absurd hm (c5.2.2.2.1 n)
        · exact absurd hm (c6.2.2.2.1 n)
        · exact absurd hm (c7.2.2.2.1 n)
        · exact absurd hm (c8.2.2.2.1 n)
        · exact (persistHash_mem_persistEvents env n).mp hm
        · exact absurd hm (cs.2.2.2 n)
      · intro hn
        simp only [List.mem_append]
        exact Or.inl (Or.inr ((persistHash_mem_persistEvents env n).mpr hn))
    · intro _ hfb
      have hmem : Event.failSummary (failedToBuild env) ∈ summaryEvents env := by
        unfold summaryEvents
        rw [if_neg hfb]
        exact List.mem_singleton_self _
      simp only [List.mem_append]
      exact Or.inr hmem

/-! ### Claim theorems -/

/-- C10: at the pre-install confirmation prompt, a non-empty answer whose
first letter (case-insensitively) is `y` proceeds with the run, `v`
re-displays the summary verbosely and re-prompts (the loop continues on the
next answer), `m` raises `NotImplementedError`, and any other non-empty
answer exits the process with status 1. -/
theorem claim_C10_install_prompt_dispatch (s : String) (rest : List (Option String))
    (h : s.isEmpty = false) :
    (s.front.toLower = 'y' → install_prompt (some s :: rest) = .proceed)
    ∧ (s.front.toLower = 'v' → install_prompt (some s :: rest) = install_prompt rest)
    ∧ (s.front.toLower = 'm' → install_prompt (some s :: rest) = .notImpl)
    ∧ (s.front.toLower ≠ 'y' → s.front.toLower ≠ 'v' → s.front.toLower ≠ 'm' →
        install_prompt (some s :: rest) = .exitOne) := by
  refine ⟨fun hy => ?_, fun hv => ?_, fun hm => ?_, fun hy hv hm => ?_⟩ <;>
    (conv_lhs => unfold install_prompt)
  · simp [h, hy]
  · simp [h, hv]
  · simp [h, hm]
  · simp [h, hy, hv, hm]

/-- C10 witness: the answer "q" is non-empty, starts with none of y/v/m, and
makes the prompt loop exit with status 1. -/
theorem claim_C10_witness :
    ("q" : String).isEmpty = false ∧ install_prompt [some "q"] = .exitOne :=
  ⟨by decide, (claim_C10_install_prompt_dispatch "q" [] (by decide)).2.2.2
    (by decide) (by decide) (by decide)⟩

/-- C1: when the conflict check reports a conflict whose target is itself a
newly installed package of this run, the run never finishes normally, every
`sys.exit` it can take is non-zero, and its trace contains no build, remove,
install, or hash-persist side effect. -/
theorem claim_C1_conflict_among_new_aborts (env : Env)
    (h : hasNewNewConflict env = true) :
    (cli_install_packages env).isFinished = false
    ∧ (∀ c, (cli_install_packages env).exitCode? = some c → c ≠ 0)
    ∧ (∀ e ∈ (cli_install_packages env).trace, e.isSideEffect = false) := by
  have hcf := conflictPhase_newnew env h
  rcases run_master env with
      ⟨a, hp, hrun⟩ | ⟨d, a, hc, hrun⟩ | ⟨d1, d, a, hc, hf, hrun⟩
    | ⟨d1, d2, d, a, hc, hf, hr, hrun⟩
    | ⟨d1, d2, d3, d, a, hc, hf, hr, h5, hrun⟩
    | ⟨d1, d2, d3, d5, d, a, hc, hf, hr, h5, h6, hrun⟩
    | ⟨d1, d2, d3, d5, d6, hc, hf, hr, h5, h6, hdl, hrun⟩
    | ⟨d1, d2, d3, d5, d6, d, a, hc, hf, hr, h5, h6, hdl, h7, hrun⟩
    | ⟨d1, d2, d3, d5, d6, d7, d, a, hc, hf, hr, h5, h6, hdl, h7, h8, hrun⟩
    | ⟨d1, d2, d3, d5, d6, d7, d8, hc, hf, hr, h5, h6, hdl, h7, h8, hrun⟩
  · rw [hrun]
    refine ⟨rfl, fun c hc2 => ?_, by simp [RunResult.trace]⟩
    rcases promptPhase_error_cases env a hp with rfl | rfl | rfl
    · simp [RunResult.exitCode?] at hc2
      omega
    · simp [RunResult.exitCode?] at hc2
    · simp [RunResult.exitCode?] at hc2
  · obtain ⟨rfl, rfl⟩ := clonePhase_error_inv env d a hc
    rw [hrun]
    refine ⟨rfl, fun c hc2 => ?_, ?_⟩
    · simp [RunResult.exitCode?] at hc2
      omega
    · intro e he
      simp only [RunResult.trace] at he
      rcases List.mem_singleton.mp he with rfl
      rfl
  · rw [hcf] at hf
    simp only [Except.error.injEq, Prod.mk.injEq] at hf
    obtain ⟨h1, h2⟩ := hf
    subst h1
    subst h2
    rw [hrun]
    refine ⟨rfl, fun c hc2 => ?_, ?_⟩
    · simp [RunResult.exitCode?] at hc2
      omega
    · intro e he
      simp only [RunResult.trace, List.append_nil] at he
      have := clonePhase_events env e (by rw [hc]; exact he)
      subst this
      rfl
  all_goals rw [hcf] at hf; simp at hf

/-- C1 witness: the run requesting the two mutually conflicting new AUR
packages a and b aborts without any side effect. -/
theorem claim_C1_witness :
    hasNewNewConflict envConflictNew = true
    ∧ ((cli_install_packages envConflictNew).isFinished = false
      ∧ (∀ c, (cli_install_packages envConflictNew).exitCode? = some c → c ≠ 0)
      ∧ (∀ e ∈ (cli_install_packages envConflictNew).trace, e.isSideEffect = false)) :=
  ⟨by decide, claim_C1_conflict_among_new_aborts envConflictNew (by decide)⟩

/-- C2 counterexample: a candidate whose recipe supports only a foreign
architecture makes the run exit with status 1, not with the claimed
status 2. -/
theorem claim_C2_counterexample :
    (cli_install_packages envBadArch).exitCode? = some 1
    ∧ (cli_install_packages envBadArch).exitCode? ≠ some 2 := by
  exact ⟨rfl, by decide⟩

/-- C2 (amended): for every candidate not skipped by the
`--needed`/up-to-date policy, the architecture check runs during the review
pass, and if any such candidate's declared architectures contain neither
`any` nor the running machine's architecture, the whole run aborts with
exit status 1 before any build, removal, or install side effect. -/
theorem claim_C2_amended_arch_abort (env : Env)
    (hnc : env.args.noconfirm = true)
    (hcl : env.clone_fails = false)
    (hnn : hasNewNewConflict env = false)
    (hap : ∀ p ∈ conflictPairs env, env.ans.removeConflict p.1 p.2 = true)
    (hed : env.ans.editor.isSome = true)
    (hbad : ∃ n ∈ allAur env, reviewSkip env n = false ∧ archOk env n = false) :
    ∃ tr, cli_install_packages env = .aborted (.exited 1) tr
      ∧ ∀ e ∈ tr, e.isSideEffect = false := by
  have hane : allAur env ≠ [] := by
    rcases hbad with ⟨n, hn, _⟩
    intro h0
    rw [h0] at hn
    cases hn
  have hbad2 : ∃ n ∈ (allAur env).reverse,
      reviewSkip env n = false ∧ archOk env n = false := by
    rcases hbad with ⟨n, hn, hx⟩
    exact ⟨n, List.mem_reverse.mpr hn, hx⟩
  obtain ⟨d, hd⟩ := reviewLoop_badarch env (allAur env).reverse hed hbad2
  have hrev : reviewPhase env = .error (d, .exited 1) := by
    unfold reviewPhase
    rw [if_neg hane, if_neg (by simp [hcl])]
    exact hd
  have hcc := clonePhase_ok_of env hcl
  have hcf := conflictPhase_ok_of env hnn hap
  refine ⟨(if allAur env = [] then [] else [Event.cloneAttempt])
      ++ ((conflictPairs env).map fun p => Event.conflictPrompt p.1 p.2) ++ d,
      ?_, ?_⟩
  · unfold cli_install_packages
    rw [promptPhase_ok_of_noconfirm env hnc, hcc, hcf, hrev]
  · intro e he
    simp only [List.mem_append] at he
    rcases he with (he | he) | he
    · split at he
      · cases he
      · rcases List.mem_singleton.mp he with rfl
        rfl
    · obtain ⟨p, _, rfl⟩ := List.mem_map.mp he
      rfl
    · have := reviewLoop_events env (allAur env).reverse e (by rw [hd]; exact he)
      obtain ⟨n, rfl | rfl⟩ := this <;> rfl

/-- C2 witness: the amended claim applied to the foreign-architecture run. -/
theorem claim_C2_witness :
    ∃ tr, cli_install_packages envBadArch = .aborted (.exited 1) tr
      ∧ ∀ e ∈ tr, e.isSideEffect = false :=
  claim_C2_amended_arch_abort envBadArch rfl rfl (by decide) (by decide) rfl
    (by decide)

/-- C3 counterexample: in a download-only run the build step still executes
for the AUR package, contradicting "never invokes the build step". -/
theorem claim_C3_counterexample :
    envDlBuild.args.downloadonly = true
    ∧ Event.build "foo" true ∈ (cli_install_packages envDlBuild).trace :=
  ⟨rfl, by decide⟩

/-- C3 (amended): a download-only run returns right after the
repository-install step: no AUR dependency install, no explicit AUR
install, no hash persistence and no failure summary ever appears in its
trace (the build pass, however, does still run before the early return). -/
theorem claim_C3_amended_downloadonly (env : Env)
    (h : env.args.downloadonly = true) :
    ∀ e ∈ (cli_install_packages env).trace, e.isLateStep = false := by
  have hlc : ∀ dd, clonePhase env = .ok dd → ∀ e ∈ dd, e.isLateStep = false := by
    intro dd hdd e he
    have := clonePhase_events env e (by rw [hdd]; exact he)
    subst this
    rfl
  have hlcE : ∀ dd a, clonePhase env = .error (dd, a) →
      ∀ e ∈ dd, e.isLateStep = false := by
    intro dd a hdd e he
    have := clonePhase_events env e (by rw [hdd]; exact he)
    subst this
    rfl
  have hlf : ∀ dd, conflictPhase env = .ok dd → ∀ e ∈ dd, e.isLateStep = false := by
    intro dd hdd e he
    obtain ⟨n, c, rfl⟩ := conflictPhase_events env e (by rw [hdd]; exact he)
    rfl
  have hlfE : ∀ dd a, conflictPhase env = .error (dd, a) →
      ∀ e ∈ dd, e.isLateStep = false := by
    intro dd a hdd e he
    obtain ⟨n, c, rfl⟩ := conflictPhase_events env e (by rw [hdd]; exact he)
    rfl
  have hlr : ∀ dd, reviewPhase env = .ok dd → ∀ e ∈ dd, e.isLateStep = false := by
    intro dd hdd e he
    obtain ⟨n, rfl | rfl⟩ := reviewPhase_events env e (by rw [hdd]; exact he) <;> rfl
  have hlrE : ∀ dd a, reviewPhase env = .error (dd, a) →
      ∀ e ∈ dd, e.isLateStep = false := by
    intro dd a hdd e he
    obtain ⟨n, rfl | rfl⟩ := reviewPhase_events env e (by rw [hdd]; exact he) <;> rfl
  have hlb : ∀ e ∈ buildEvents env, Event.isLateStep e = false := by
    intro e he
    obtain ⟨n, ok, rfl⟩ := buildEvents_shape env e he
    rfl
  have hl5 : ∀ dd, (removeStep env = .ok dd ∨ ∃ a, removeStep env = .error (dd, a)) →
      ∀ e ∈ dd, e.isLateStep = false := by
    rintro dd (hdd | ⟨a, hdd⟩) e he <;>
      rw [(removeStep_events env e (by rw [hdd]; exact he)).1] <;> rfl
  have hl6 : ∀ dd, (repoStep env = .ok dd ∨ ∃ a, repoStep env = .error (dd, a)) →
      ∀ e ∈ dd, e.isLateStep = false := by
    rintro dd (hdd | ⟨a, hdd⟩) e he <;>
      rw [(repoStep_events env e (by rw [hdd]; exact he)).1] <;> rfl
  rcases run_master env with
      ⟨a, hp, hrun⟩ | ⟨d, a, hc, hrun⟩ | ⟨d1, d, a, hc, hf, hrun⟩
    | ⟨d1, d2, d, a, hc, hf, hr, hrun⟩
    | ⟨d1, d2, d3, d, a, hc, hf, hr, h5, hrun⟩
    | ⟨d1, d2, d3, d5, d, a, hc, hf, hr, h5, h6, hrun⟩
    | ⟨d1, d2, d3, d5, d6, hc, hf, hr, h5, h6, hdl, hrun⟩
    | ⟨d1, d2, d3, d5, d6, d, a, hc, hf, hr, h5, h6, hdl, h7, hrun⟩
    | ⟨d1, d2, d3, d5, d6, d7, d, a, hc, hf, hr, h5, h6, hdl, h7, h8, hrun⟩
    | ⟨d1, d2, d3, d5, d6, d7, d8, hc, hf, hr, h5, h6, hdl, h7, h8, hrun⟩ <;>
    [skip; skip; skip; skip; skip; skip; skip;
      (rw [h] at hdl; cases hdl); (rw [h] at hdl; cases hdl);
      (rw [h] at hdl; cases hdl)] <;>
    rw [hrun] <;> intro e he <;>
    simp only [RunResult.trace, List.mem_append] at he
  · cases he
  · obtain ⟨rfl, -⟩ := clonePhase_error_inv env d a hc
    rcases List.mem_singleton.mp he with rfl
    rfl
  · rcases he with he | he
    · exact hlc d1 hc e he
    · exact hlfE d a hf e he
  · rcases he with (he | he) | he
    · exact hlc d1 hc e he
    · exact hlf d2 hf e he
    · exact hlrE d a hr e he
  · rcases he with ((((he | he) | he) | he) | he) | he
    · exact hlc d1 hc e he
    · exact hlf d2 hf e he
    · exact hlr d3 hr e he
    · rcases List.mem_singleton.mp he with rfl
      rfl
    · exact hlb e he
    · exact hl5 d (Or.inr ⟨a, h5⟩) e he
  · rcases he with (((((he | he) | he) | he) | he) | he) | he
    · exact hlc d1 hc e he
    · exact hlf d2 hf e he
    · exact hlr d3 hr e he
    · rcases List.mem_singleton.mp he with rfl
      rfl
    · exact hlb e he
    · exact hl5 d5 (Or.inl h5) e he
    · exact hl6 d (Or.inr ⟨a, h6⟩) e he
  · rcases he with (((((he | he) | he) | he) | he) | he) | he
    · exact hlc d1 hc e he
    · exact hlf d2 hf e he
    · exact hlr d3 hr e he
    · rcases List.mem_singleton.mp he with rfl
      rfl
    · exact hlb e he
    · exact hl5 d5 (Or.inl h5) e he
    · exact hl6 d6 (Or.inl h6) e he

/-- C3 witness: the amended claim applied to the download-only run with one
successfully built AUR package, at the build event of that trace. -/
theorem claim_C3_witness :
    envDlBuild.args.downloadonly = true
    ∧ Event.build "foo" true ∈ (cli_install_packages envDlBuild).trace
    ∧ (Event.build "foo" true).isLateStep = false :=
  ⟨rfl, by decide,
    claim_C3_amended_downloadonly envDlBuild rfl (Event.build "foo" true) (by decide)⟩

theorem depsInstallCmd_payload (env : Env) (ps : List (String × String)) (ok : Bool)
    (h : Event.depsInstallCmd ps ok ∈ (cli_install_packages env).trace) :
    ps = depsBatch env := by
  rcases run_trace_shape env _ h with
      h2 | ⟨n, c, h2⟩ | ⟨n, h2 | h2⟩ | h2 | ⟨n, ok2, h2⟩ | ⟨h2, -⟩ | ⟨h2, -⟩
    | ⟨h2, -⟩ | ⟨h2, -⟩ | ⟨n, h2, -⟩ | ⟨h2, -⟩
  · cases h2
  · cases h2
  · cases h2
  · cases h2
  · cases h2
  · cases h2
  · cases h2
  · cases h2
  · simp only [Event.depsInstallCmd.injEq] at h2
    exact h2.1
  · cases h2
  · cases h2
  · cases h2

theorem explicitInstallCmd_payload (env : Env) (ps : List (String × String)) (ok : Bool)
    (h : Event.explicitInstallCmd ps ok ∈ (cli_install_packages env).trace) :
    ps = explicitBatch env := by
  rcases run_trace_shape env _ h with
      h2 | ⟨n, c, h2⟩ | ⟨n, h2 | h2⟩ | h2 | ⟨n, ok2, h2⟩ | ⟨h2, -⟩ | ⟨h2, -⟩
    | ⟨h2, -⟩ | ⟨h2, -⟩ | ⟨n, h2, -⟩ | ⟨h2, -⟩
  · cases h2
  · cases h2
  · cases h2
  · cases h2
  · cases h2
  · cases h2
  · cases h2
  · cases h2
  · cases h2
  · simp only [Event.explicitInstallCmd.injEq] at h2
    exact h2.1
  · cases h2
  · cases h2

theorem removeCmd_payload (env : Env) (ps : List String) (ok : Bool)
    (h : Event.removeCmd ps ok ∈ (cli_install_packages env).trace) :
    ps = packagesToBeRemoved env ∧ packagesToBeRemoved env ≠ [] := by
  rcases run_trace_shape env _ h with
      h2 | ⟨n, c, h2⟩ | ⟨n, h2 | h2⟩ | h2 | ⟨n, ok2, h2⟩ | ⟨h2, hne⟩ | ⟨h2, -⟩
    | ⟨h2, -⟩ | ⟨h2, -⟩ | ⟨n, h2, -⟩ | ⟨h2, -⟩
  · cases h2
  · cases h2
  · cases h2
  · cases h2
  · cases h2
  · cases h2
  · simp only [Event.removeCmd.injEq] at h2
    exact ⟨h2.1, hne⟩
  · cases h2
  · cases h2
  · cases h2
  · cases h2
  · cases h2

theorem persistHash_isSome (env : Env) (n : String)
    (h : Event.persistHash n ∈ (cli_install_packages env).trace) :
    (builtPath env n).isSome = true := by
  rcases run_trace_shape env _ h with
      h2 | ⟨m, c, h2⟩ | ⟨m, h2 | h2⟩ | h2 | ⟨m, ok2, h2⟩ | ⟨h2, -⟩ | ⟨h2, -⟩
    | ⟨h2, -⟩ | ⟨h2, -⟩ | ⟨m, h2, hs⟩ | ⟨h2, -⟩
  · cases h2
  · cases h2
  · cases h2
  · cases h2
  · cases h2
  · cases h2
  · cases h2
  · cases h2
  · cases h2
  · cases h2
  · simp only [Event.persistHash.injEq] at h2
    exact h2 ▸ hs
  · cases h2

/-- C4 counterexample: with explicit package bar depending on AUR dependency
baz, the review pass and the build pass both visit in the order
[baz, bar]; the review order is not the reverse of the build order as
claimed. -/
theorem claim_C4_counterexample :
    reviewedNames (cli_install_packages envTwo).trace = ["baz", "bar"]
    ∧ buildNames (cli_install_packages envTwo).trace = ["baz", "bar"]
    ∧ reviewedNames (cli_install_packages envTwo).trace
        ≠ (buildNames (cli_install_packages envTwo).trace).reverse :=
  ⟨by decide, by decide, by decide⟩

/-- C4 (amended): both the review pass and the build pass iterate
`reversed(aur_packages_names + aur_deps_names)` — the same order for both,
dependencies before their dependents. -/
theorem claim_C4_amended_same_order (env : Env) (tr : List Event)
    (hfin : cli_install_packages env = .finished tr)
    (hneed : env.args.needed = false) :
    reviewedNames tr = (allAur env).reverse
    ∧ buildNames tr = (allAur env).reverse := by
  obtain ⟨h1, h2, -, -⟩ := run_finished_names env tr hfin
  exact ⟨h1, by rw [h2, buildVisited_of_not_needed env hneed]⟩

/-- C4 witness: the amended claim applied to the bar/baz run. -/
theorem claim_C4_witness :
    reviewedNames (cli_install_packages envTwo).trace = (allAur envTwo).reverse
    ∧ buildNames (cli_install_packages envTwo).trace = (allAur envTwo).reverse :=
  claim_C4_amended_same_order envTwo _ rfl rfl

/-- C5: a package whose built-artifact path is unset (its build failed or
was skipped) never appears in the dependency-install batch nor in the
explicit-install batch, and its hash is never persisted. -/
theorem claim_C5_failed_build_not_installed (env : Env) (pkg : String)
    (h : builtPath env pkg = none) :
    ∀ e ∈ (cli_install_packages env).trace,
      (∀ ps ok, e = Event.depsInstallCmd ps ok → ∀ pr ∈ ps, pr.1 ≠ pkg)
      ∧ (∀ ps ok, e = Event.explicitInstallCmd ps ok → ∀ pr ∈ ps, pr.1 ≠ pkg)
      ∧ e ≠ Event.persistHash pkg := by
  have hbatch : ∀ (names : List String) (pr : String × String),
      pr ∈ names.filterMap (fun n => (builtPath env n).map fun p => (n, p)) →
      pr.1 ≠ pkg := by
    intro names pr hpr
    simp only [List.mem_filterMap] at hpr
    obtain ⟨n, hn, hmap⟩ := hpr
    rcases hbp : builtPath env n with _ | p <;> rw [hbp] at hmap
    · cases hmap
    · simp only [Option.map_some'] at hmap
      injection hmap with hmap2
      subst hmap2
      intro hq
      simp only at hq
      rw [hq] at hbp
      rw [h] at hbp
      cases hbp
  intro e he
  refine ⟨fun ps ok hq pr hpr => ?_, fun ps ok hq pr hpr => ?_, fun hq => ?_⟩
  · subst hq
    have hps := depsInstallCmd_payload env ps ok he
    subst hps
    exact hbatch env.aur_deps_names pr hpr
  · subst hq
    have hps := explicitInstallCmd_payload env ps ok he
    subst hps
    exact hbatch env.aur_packages_names pr hpr
  · subst hq
    have := persistHash_isSome env pkg he
    rw [h] at this
    cases this

/-- C5 witness: in the run where the build of "bad" fails, "bad" reaches no
install batch and no hash persistence. -/
theorem claim_C5_witness :
    builtPath envFailBuild "bad" = none
    ∧ ∀ e ∈ (cli_install_packages envFailBuild).trace,
      (∀ ps ok, e = Event.depsInstallCmd ps ok → ∀ pr ∈ ps, pr.1 ≠ "bad")
      ∧ (∀ ps ok, e = Event.explicitInstallCmd ps ok → ∀ pr ∈ ps, pr.1 ≠ "bad")
      ∧ e ≠ Event.persistHash "bad" :=
  ⟨by decide, claim_C5_failed_build_not_installed envFailBuild "bad" (by decide)⟩

/-- C6 counterexample: a download-only run with a failed build finishes
normally with a non-empty failure list, yet prints no failure summary (the
early return skips it). -/
theorem claim_C6_counterexample :
    envDlFail.args.downloadonly = true
    ∧ failedToBuild envDlFail = ["foo"]
    ∧ (cli_install_packages envDlFail).isFinished = true
    ∧ ∀ e ∈ (cli_install_packages envDlFail).trace, e.isLateStep = false :=
  ⟨rfl, by decide, by decide, by decide⟩

/-- C6 (amended): a build failure is recorded and the loop continues — every
non-skipped package still gets its build step — and the failure summary is
printed whenever the failure list is non-empty and the run finishes outside
download-only mode (the download-only early return skips the summary). -/
theorem claim_C6_amended_failures (env : Env) (tr : List Event)
    (hfin : cli_install_packages env = .finished tr)
    (hdl : env.args.downloadonly = false) :
    buildNames tr = buildVisited env
    ∧ (failedToBuild env ≠ [] → Event.failSummary (failedToBuild env) ∈ tr) := by
  obtain ⟨-, h2, -, h4⟩ := run_finished_names env tr hfin
  exact ⟨h2, h4 hdl⟩

/-- C6 witness: the amended claim applied to the plain run with one failing
build. -/
theorem claim_C6_witness :
    buildNames (cli_install_packages envFailSummary).trace
        = buildVisited envFailSummary
    ∧ (failedToBuild envFailSummary ≠ [] →
        Event.failSummary (failedToBuild envFailSummary)
          ∈ (cli_install_packages envFailSummary).trace) :=
  claim_C6_amended_failures envFailSummary _ rfl rfl

/-- C7 counterexample: the explicit install command fails (its artifact is
not installed), the user chooses to continue, and the hash is persisted
anyway. -/
theorem claim_C7_counterexample :
    Event.explicitInstallCmd [("foo", "/pkg.tar")] false
        ∈ (cli_install_packages envInstFail).trace
    ∧ Event.persistHash "foo" ∈ (cli_install_packages envInstFail).trace :=
  ⟨by decide, by decide⟩

/-- C7 (amended): on a run that reaches the persistence step (finished, not
download-only), the hash is persisted for exactly the packages whose
built-artifact path is set — independently of whether their install command
reported success. -/
theorem claim_C7_amended_persist (env : Env) (tr : List Event)
    (hfin : cli_install_packages env = .finished tr)
    (hdl : env.args.downloadonly = false) (n : String) :
    Event.persistHash n ∈ tr ↔ n ∈ allAur env ∧ (builtPath env n).isSome = true := by
  obtain ⟨-, -, h3, -⟩ := run_finished_names env tr hfin
  exact h3 hdl n

/-- C7 witness: the amended claim applied to the failed-install run. -/
theorem claim_C7_witness :
    Event.persistHash "foo" ∈ (cli_install_packages envInstFail).trace
      ↔ "foo" ∈ allAur envInstFail ∧ (builtPath envInstFail "foo").isSome = true :=
  claim_C7_amended_persist envInstFail _ rfl rfl "foo"

theorem privEvents_append (l m : List Event) :
    privEvents (l ++ m) = privEvents l ++ privEvents m := by
  unfold privEvents
  exact List.filter_append l m

theorem privEvents_persist (env : Env) :
    privEvents (persistEvents env) = persistEvents env := by
  apply List.filter_eq_self.mpr
  intro e he
  obtain ⟨n, rfl, -⟩ := persistEvents_shape env e he
  rfl

theorem privEvents_summary (env : Env) :
    privEvents (summaryEvents env) = [] := by
  apply List.filter_eq_nil_iff.mpr
  intro e he
  obtain ⟨rfl, -⟩ := summaryEvents_shape env e he
  simp [privRank?]

/-- C8: the privileged install sequence of every run is (a prefix pattern
of) the fixed order — conflicting-package removal, repository install,
AUR dependency install marked as-dependency, explicit AUR install, hash
persistence — with every empty step skipped; a run that finishes normally
performs exactly that sequence. -/
theorem claim_C8_install_sequence_order (env : Env) :
    List.Sublist (privEvents (cli_install_packages env).trace) (seqFull env)
    ∧ ((cli_install_packages env).isFinished = true →
        privEvents (cli_install_packages env).trace = seqFull env) := by
  have hn1 : ∀ dd, clonePhase env = .ok dd → privEvents dd = [] := by
    intro dd hdd
    apply List.filter_eq_nil_iff.mpr
    intro e he
    have := clonePhase_events env e (by rw [hdd]; exact he)
    subst this
    simp [privRank?]
  have hn1E : ∀ dd a, clonePhase env = .error (dd, a) → privEvents dd = [] := by
    intro dd a hdd
    rw [(clonePhase_error_inv env dd a hdd).1]
    rfl
  have hn2 : ∀ dd, (conflictPhase env = .ok dd ∨ ∃ a, conflictPhase env = .error (dd, a)) →
      privEvents dd = [] := by
    rintro dd (hdd | ⟨a, hdd⟩) <;> (
      apply List.filter_eq_nil_iff.mpr
      intro e he
      obtain ⟨n, c, rfl⟩ := conflictPhase_events env e (by rw [hdd]; exact he)
      simp [privRank?])
  have hn3 : ∀ dd, (reviewPhase env = .ok dd ∨ ∃ a, reviewPhase env = .error (dd, a)) →
      privEvents dd = [] := by
    rintro dd (hdd | ⟨a, hdd⟩) <;> (
      apply List.filter_eq_nil_iff.mpr
      intro e he
      obtain ⟨n, rfl | rfl⟩ := reviewPhase_events env e (by rw [hdd]; exact he) <;>
        simp [privRank?])
  have hnb : privEvents (buildEvents env) = [] := by
    apply List.filter_eq_nil_iff.mpr
    intro e he
    obtain ⟨n, ok, rfl⟩ := buildEvents_shape env e he
    simp [privRank?]
  have hnsudo : ∀ l, privEvents (Event.sudoAcquired :: l) = privEvents l := fun l => rfl
  have hA : ∀ dd, removeStep env = .ok dd →
      privEvents dd = (if packagesToBeRemoved env = [] then []
        else [Event.removeCmd (packagesToBeRemoved env) env.ans.removeOk]) := by
    intro dd hdd
    rcases removeStep_cases env with ⟨h1, h2⟩ | ⟨h1, h2 | h2⟩
    · rw [hdd] at h2
      injection h2 with h3
      subst h3
      rw [if_pos h1]
      rfl
    · rw [hdd] at h2
      injection h2 with h3
      subst h3
      rw [if_neg h1]
      rfl
    · rw [hdd] at h2
      simp at h2
  have hAerr : ∀ dd a, removeStep env = .error (dd, a) →
      privEvents dd
          = [Event.removeCmd (packagesToBeRemoved env) env.ans.removeOk]
        ∧ packagesToBeRemoved env ≠ [] := by
    intro dd a hdd
    rcases removeStep_cases env with ⟨h1, h2⟩ | ⟨h1, h2 | h2⟩ <;> rw [hdd] at h2
    · simp at h2
    · simp at h2
    · simp only [Except.error.injEq, Prod.mk.injEq] at h2
      obtain ⟨h21, h22⟩ := h2
      subst h21
      exact ⟨rfl, h1⟩
  have hB : ∀ dd, repoStep env = .ok dd →
      privEvents dd = (if env.repo_packages_names = [] then []
        else [Event.repoInstallCmd env.repo_packages_names env.ans.repoOk]) := by
    intro dd hdd
    rcases repoStep_cases env with ⟨h1, h2⟩ | ⟨h1, h2 | h2⟩
    · rw [hdd] at h2
      injection h2 with h3
      subst h3
      rw [if_pos h1]
      rfl
    · rw [hdd] at h2
      injection h2 with h3
      subst h3
      rw [if_neg h1]
      rfl
    · rw [hdd] at h2
      simp at h2
  have hBerr : ∀ dd a, repoStep env = .error (dd, a) →
      privEvents dd
          = [Event.repoInstallCmd env.repo_packages_names env.ans.repoOk]
        ∧ env.repo_packages_names ≠ [] := by
    intro dd a hdd
    rcases repoStep_cases env with ⟨h1, h2⟩ | ⟨h1, h2 | h2⟩ <;> rw [hdd] at h2
    · simp at h2
    · simp at h2
    · simp only [Except.error.injEq, Prod.mk.injEq] at h2
      obtain ⟨h21, h22⟩ := h2
      subst h21
      exact ⟨rfl, h1⟩
  have hD : ∀ dd, depsStep env = .ok dd →
      privEvents dd = (if depsBatch env = [] then []
        else [Event.depsInstallCmd (depsBatch env) env.ans.depsOk]) := by
    intro dd hdd
    rcases depsStep_cases env with ⟨h1, h2⟩ | ⟨h1, h2 | h2⟩
    · rw [hdd] at h2
      injection h2 with h3
      subst h3
      rw [if_pos h1]
      rfl
    · rw [hdd] at h2
      injection h2 with h3
      subst h3
      rw [if_neg h1]
      rfl
    · rw [hdd] at h2
      simp at h2
  have hDerr : ∀ dd a, depsStep env = .error (dd, a) →
      privEvents dd = [Event.depsInstallCmd (depsBatch env) env.ans.depsOk]
        ∧ depsBatch env ≠ [] := by
    intro dd a hdd
    rcases depsStep_cases env with ⟨h1, h2⟩ | ⟨h1, h2 | h2⟩ <;> rw [hdd] at h2
    · simp at h2
    · simp at h2
    · simp only [Except.error.injEq, Prod.mk.injEq] at h2
      obtain ⟨h21, h22⟩ := h2
      subst h21
      exact ⟨rfl, h1⟩
  have hE : ∀ dd, explicitStep env = .ok dd →
      privEvents dd = (if explicitBatch env = [] then []
        else [Event.explicitInstallCmd (explicitBatch env) env.ans.explicitOk]) := by
    intro dd hdd
    rcases explicitStep_cases env with ⟨h1, h2⟩ | ⟨h1, h2 | h2⟩
    · rw [hdd] at h2
      injection h2 with h3
      subst h3
      rw [if_pos h1]
      rfl
    · rw [hdd] at h2
      injection h2 with h3
      subst h3
      rw [if_neg h1]
      rfl
    · rw [hdd] at h2
      simp at h2
  have hEerr : ∀ dd a, explicitStep env = .error (dd, a) →
      privEvents dd
          = [Event.explicitInstallCmd (explicitBatch env) env.ans.explicitOk]
        ∧ explicitBatch env ≠ [] := by
    intro dd a hdd
    rcases explicitStep_cases env with ⟨h1, h2⟩ | ⟨h1, h2 | h2⟩ <;> rw [hdd] at h2
    · simp at h2
    · simp at h2
    · simp only [Except.error.injEq, Prod.mk.injEq] at h2
      obtain ⟨h21, h22⟩ := h2
      subst h21
      exact ⟨rfl, h1⟩
  rcases run_master env with
      ⟨a, hp, hrun⟩ | ⟨d, a, hc, hrun⟩ | ⟨d1, d, a, hc, hf, hrun⟩
    | ⟨d1, d2, d, a, hc, hf, hr, hrun⟩
    | ⟨d1, d2, d3, d, a, hc, hf, hr, h5, hrun⟩
    | ⟨d1, d2, d3, d5, d, a, hc, hf, hr, h5, h6, hrun⟩
    | ⟨d1, d2, d3, d5, d6, hc, hf, hr, h5, h6, hdl, hrun⟩
    | ⟨d1, d2, d3, d5, d6, d, a, hc, hf, hr, h5, h6, hdl, h7, hrun⟩
    | ⟨d1, d2, d3, d5, d6, d7, d, a, hc, hf, hr, h5, h6, hdl, h7, h8, hrun⟩
    | ⟨d1, d2, d3, d5, d6, d7, d8, hc, hf, hr, h5, h6, hdl, h7, h8, hrun⟩ <;>
    rw [hrun] <;>
    simp only [RunResult.trace, RunResult.isFinished, List.append_assoc,
      List.singleton_append, privEvents_append, hnsudo, hnb, privEvents_persist,
      privEvents_summary, Bool.false_eq_true, false_implies, and_true,
      List.append_nil, List.nil_append]
  · exact List.nil_sublist _
  · rw [hn1E d a hc]
    exact List.nil_sublist _
  · rw [hn1 d1 hc, hn2 d (Or.inr ⟨a, hf⟩)]
    exact List.nil_sublist _
  · rw [hn1 d1 hc, hn2 d2 (Or.inl hf), hn3 d (Or.inr ⟨a, hr⟩)]
    exact List.nil_sublist _
  · obtain ⟨hd, hne⟩ := hAerr d a h5
    rw [hn1 d1 hc, hn2 d2 (Or.inl hf), hn3 d3 (Or.inl hr), hd]
    unfold seqFull
    rw [if_neg hne]
    simp only [List.nil_append, List.append_assoc]
    exact List.sublist_append_left _ _
  · obtain ⟨hd, hne⟩ := hBerr d a h6
    rw [hn1 d1 hc, hn2 d2 (Or.inl hf), hn3 d3 (Or.inl hr), hA d5 h5, hd]
    unfold seqFull
    rw [if_neg hne]
    simp only [List.nil_append, List.append_assoc]
    exact (List.sublist_append_left _ _).append_left _
  · rw [hn1 d1 hc, hn2 d2 (Or.inl hf), hn3 d3 (Or.inl hr), hA d5 h5, hB d6 h6]
    have hsf : seqFull env
        = (if packagesToBeRemoved env = [] then []
            else [Event.removeCmd (packagesToBeRemoved env) env.ans.removeOk])
          ++ ((if env.repo_packages_names = [] then []
            else [Event.repoInstallCmd env.repo_packages_names env.ans.repoOk])) := by
      unfold seqFull
      rw [hdl]
      simp
    rw [hsf]
    simp only [List.nil_append]
    exact ⟨List.Sublist.refl _, fun _ => trivial⟩
  · obtain ⟨hd, hne⟩ := hDerr d a h7
    rw [hn1 d1 hc, hn2 d2 (Or.inl hf), hn3 d3 (Or.inl hr), hA d5 h5, hB d6 h6, hd]
    unfold seqFull
    rw [hdl, if_neg Bool.false_ne_true, if_neg hne]
    simp only [List.nil_append, List.append_assoc]
    refine List.Sublist.append_left ?_ _
    refine List.Sublist.append_left ?_ _
    exact List.sublist_append_left _ _
  · obtain ⟨hd, hne⟩ := hEerr d a h8
    rw [hn1 d1 hc, hn2 d2 (Or.inl hf), hn3 d3 (Or.inl hr), hA d5 h5, hB d6 h6,
      hD d7 h7, hd]
    unfold seqFull
    rw [hdl, if_neg Bool.false_ne_true, if_neg hne]
    simp only [List.nil_append, List.append_assoc]
    refine List.Sublist.append_left ?_ _
    refine List.Sublist.append_left ?_ _
    refine List.Sublist.append_left ?_ _
    exact List.sublist_append_left _ _
  · rw [hn1 d1 hc, hn2 d2 (Or.inl hf), hn3 d3 (Or.inl hr), hA d5 h5, hB d6 h6,
      hD d7 h7, hE d8 h8]
    have hsf : seqFull env
        = (if packagesToBeRemoved env = [] then []
            else [Event.removeCmd (packagesToBeRemoved env) env.ans.removeOk])
          ++ ((if env.repo_packages_names = [] then []
            else [Event.repoInstallCmd env.repo_packages_names env.ans.repoOk])
          ++ ((if depsBatch env = [] then []
            else [Event.depsInstallCmd (depsBatch env) env.ans.depsOk])
          ++ ((if explicitBatch env = [] then []
            else [Event.explicitInstallCmd (explicitBatch env) env.ans.explicitOk])
          ++ persistEvents env))) := by
      unfold seqFull
      rw [hdl, if_neg Bool.false_ne_true]
      simp [List.append_assoc]
    rw [hsf]
    simp only [List.nil_append, List.append_assoc]
    exact ⟨List.Sublist.refl _, fun _ => trivial⟩

/-- C8 witness: the full run over bar and baz performs exactly the fixed
privileged sequence. -/
theorem claim_C8_witness :
    privEvents (cli_install_packages envTwo).trace = seqFull envTwo :=
  (claim_C8_install_sequence_order envTwo).2 (by decide)

/-- C9 counterexample: two new packages each conflicting with the same
installed package x produce TWO removal prompts about x — one per declared
(new package, conflict) pair — not a single prompt per conflicting existing
package as claimed. -/
theorem claim_C9_counterexample :
    promptPairs (cli_install_packages envDupConflict).trace = [("a", "x"), ("b", "x")]
    ∧ Event.removeCmd ["x"] true ∈ (cli_install_packages envDupConflict).trace :=
  ⟨by decide, by decide⟩

/-- C9 (amended): the caller is prompted once per declared (new package,
existing conflict) pair, in declaration order; if all prompts are approved,
the removal command's package list is the deduplicated union of all declared
conflicts, and if any prompt is declined the run aborts with exit
status 1. -/
theorem claim_C9_amended_conflict_prompts (env : Env)
    (hnc : env.args.noconfirm = true)
    (hcl : env.clone_fails = false)
    (hnn : hasNewNewConflict env = false) :
    ((∀ p ∈ conflictPairs env, env.ans.removeConflict p.1 p.2 = true) →
        promptPairs (cli_install_packages env).trace = conflictPairs env
        ∧ (∀ ps ok, Event.removeCmd ps ok ∈ (cli_install_packages env).trace →
            ps.Nodup ∧ ∀ x, x ∈ ps ↔ ∃ p ∈ env.conflict_result, x ∈ p.2))
    ∧ ((∃ p ∈ conflictPairs env, env.ans.removeConflict p.1 p.2 = false) →
        ∃ tr, cli_install_packages env = .aborted (.exited 1) tr) := by
  constructor
  · intro hap
    have hcf := conflictPhase_ok_of env hnn hap
    constructor
    · -- the prompts are exactly the declared pairs, in order
      have hP2 : promptPairs
          ((conflictPairs env).map fun p => Event.conflictPrompt p.1 p.2)
          = conflictPairs env := by
        unfold promptPairs
        rw [List.filterMap_map]
        simp [Function.comp_def, promptPair?]
      have hP1 : ∀ dd, clonePhase env = .ok dd → promptPairs dd = [] :=
        fun dd hdd => (cloneSeg_facts env dd hdd).2.2.1
      have hP3 : ∀ dd,
          (reviewPhase env = .ok dd ∨ ∃ a, reviewPhase env = .error (dd, a)) →
          promptPairs dd = [] := by
        rintro dd (hdd | ⟨a, hdd⟩) <;> (
          apply List.filterMap_eq_nil_iff.mpr
          intro e he
          obtain ⟨n, rfl | rfl⟩ :=
            reviewPhase_events env e (by rw [hdd]; exact he) <;> rfl)
      have hPb : promptPairs (buildEvents env) = [] := (buildSeg_facts env).2.1
      have hP5 : ∀ dd,
          (removeStep env = .ok dd ∨ ∃ a, removeStep env = .error (dd, a)) →
          promptPairs dd = [] := by
        rintro dd (hdd | ⟨a, hdd⟩) <;>
          exact (cmdSeg_facts dd fun e he =>
            Or.inl ⟨_, _, (removeStep_events env e (by rw [hdd]; exact he)).1⟩).2.2.1
      have hP6 : ∀ dd,
          (repoStep env = .ok dd ∨ ∃ a, repoStep env = .error (dd, a)) →
          promptPairs dd = [] := by
        rintro dd (hdd | ⟨a, hdd⟩) <;>
          exact (cmdSeg_facts dd fun e he =>
            Or.inr (Or.inl ⟨_, _,
              (repoStep_events env e (by rw [hdd]; exact he)).1⟩)).2.2.1
      have hP7 : ∀ dd,
          (depsStep env = .ok dd ∨ ∃ a, depsStep env = .error (dd, a)) →
          promptPairs dd = [] := by
        rintro dd (hdd | ⟨a, hdd⟩) <;>
          exact (cmdSeg_facts dd fun e he =>
            Or.inr (Or.inr (Or.inl ⟨_, _,
              (depsStep_events env e (by rw [hdd]; exact he)).1⟩))).2.2.1
      have hP8 : ∀ dd,
          (explicitStep env = .ok dd ∨ ∃ a, explicitStep env = .error (dd, a)) →
          promptPairs dd = [] := by
        rintro dd (hdd | ⟨a, hdd⟩) <;>
          exact (cmdSeg_facts dd fun e he =>
            Or.inr (Or.inr (Or.inr ⟨_, _,
              (explicitStep_events env e (by rw [hdd]; exact he)).1⟩))).2.2.1
      have hPp : promptPairs (persistEvents env) = [] := (persistSeg_facts env).2.2.1
      have hPs : promptPairs (summaryEvents env) = [] := (summarySeg_facts env).2.2.1
      rcases run_master env with
          ⟨a, hp, hrun⟩ | ⟨d, a, hc, hrun⟩ | ⟨d1, d, a, hc, hf, hrun⟩
        | ⟨d1, d2, d, a, hc, hf, hr, hrun⟩
        | ⟨d1, d2, d3, d, a, hc, hf, hr, h5, hrun⟩
        | ⟨d1, d2, d3, d5, d, a, hc, hf, hr, h5, h6, hrun⟩
        | ⟨d1, d2, d3, d5, d6, hc, hf, hr, h5, h6, hdl, hrun⟩
        | ⟨d1, d2, d3, d5, d6, d, a, hc, hf, hr, h5, h6, hdl, h7, hrun⟩
        | ⟨d1, d2, d3, d5, d6, d7, d, a, hc, hf, hr, h5, h6, hdl, h7, h8, hrun⟩
        | ⟨d1, d2, d3, d5, d6, d7, d8, hc, hf, hr, h5, h6, hdl, h7, h8, hrun⟩
      · rw [promptPhase_ok_of_noconfirm env hnc] at hp
        cases hp
      · rw [clonePhase_ok_of env hcl] at hc
        cases hc
      · rw [hcf] at hf
        cases hf
      all_goals (
        rw [hcf] at hf
        injection hf with hf2
        subst hf2
        rw [hrun]
        simp only [RunResult.trace, List.append_assoc, List.singleton_append,
          promptPairs_append, promptPairs_sudo, hPb, hPp, hPs, hP1 d1 hc,
          List.append_nil, List.nil_append])
      · rw [hP3 d (Or.inr ⟨a, hr⟩), hP2]
        simp
      · rw [hP3 d3 (Or.inl hr), hP5 d (Or.inr ⟨a, h5⟩), hP2]
        simp
      · rw [hP3 d3 (Or.inl hr), hP5 d5 (Or.inl h5), hP6 d (Or.inr ⟨a, h6⟩), hP2]
        simp
      · rw [hP3 d3 (Or.inl hr), hP5 d5 (Or.inl h5), hP6 d6 (Or.inl h6), hP2]
        simp
      · rw [hP3 d3 (Or.inl hr), hP5 d5 (Or.inl h5), hP6 d6 (Or.inl h6),
          hP7 d (Or.inr ⟨a, h7⟩), hP2]
        simp
      · rw [hP3 d3 (Or.inl hr), hP5 d5 (Or.inl h5), hP6 d6 (Or.inl h6),
          hP7 d7 (Or.inl h7), hP8 d (Or.inr ⟨a, h8⟩), hP2]
        simp
      · rw [hP3 d3 (Or.inl hr), hP5 d5 (Or.inl h5), hP6 d6 (Or.inl h6),
          hP7 d7 (Or.inl h7), hP8 d8 (Or.inl h8), hP2]
        simp
    · -- the removal list is the deduplicated union of all declared conflicts
      intro ps ok hmem
      obtain ⟨hps, hne⟩ := removeCmd_payload env ps ok hmem
      subst hps
      have hcrne : env.conflict_result ≠ [] := by
        intro h0
        apply hne
        unfold packagesToBeRemoved
        rw [if_pos h0]
      have hval : packagesToBeRemoved env
          = ((env.conflict_result.map Prod.snd).flatten).dedup := by
        unfold packagesToBeRemoved
        rw [if_neg hcrne]
      rw [hval]
      refine ⟨List.nodup_dedup _, fun x => ?_⟩
      constructor
      · intro hx
        rw [List.mem_dedup, List.mem_flatten] at hx
        obtain ⟨l, hl, hxl⟩ := hx
        obtain ⟨p, hp, rfl⟩ := List.mem_map.mp hl
        exact ⟨p, hp, hxl⟩
      · rintro ⟨p, hp, hx⟩
        rw [List.mem_dedup, List.mem_flatten]
        exact ⟨p.2, List.mem_map.mpr ⟨p, hp, rfl⟩, hx⟩
  · -- a declined prompt aborts the run with exit status 1
    intro hdec
    obtain ⟨d, hd⟩ := askRemoveLoop_declined env (conflictPairs env) hdec
    have hcrne : env.conflict_result ≠ [] := by
      intro h0
      rcases hdec with ⟨p, hp, -⟩
      rw [show conflictPairs env = [] by simp [conflictPairs, h0]] at hp
      cases hp
    have hcf2 : conflictPhase env = .error (d, .exited 1) := by
      unfold conflictPhase
      rw [if_neg hcrne, if_neg (by simp [hnn])]
      exact hd
    refine ⟨(if allAur env = [] then [] else [Event.cloneAttempt]) ++ d, ?_⟩
    unfold cli_install_packages
    rw [promptPhase_ok_of_noconfirm env hnc, clonePhase_ok_of env hcl, hcf2]

/-- C9 witness: the amended claim applied to the duplicated-conflict run
with every prompt approved. -/
theorem claim_C9_witness :
    promptPairs (cli_install_packages envDupConflict).trace
        = conflictPairs envDupConflict
    ∧ (∀ ps ok, Event.removeCmd ps ok ∈ (cli_install_packages envDupConflict).trace →
        ps.Nodup ∧ ∀ x, x ∈ ps ↔ ∃ p ∈ envDupConflict.conflict_result, x ∈ p.2) :=
  (claim_C9_amended_conflict_prompts envDupConflict rfl rfl (by decide)).1
    (by decide)

end Pikaur
